import Mathlib

/- Verification development for the tool-chat context-selection engine of the
torensa backend (`backend/api/views/tool_chat_views.py`, with its constant
tables in `backend/api/views/tool_chat_static.py`).

Python strings are modelled as `List Char` (`PyStr`); `x in y` on strings is
the infix-relation test; floats carry only exact decimal weights here, so
scores are modelled as rationals; a function that can raise is modelled in
`Except PyError`.  Catalog entries may be non-dict values (`CatalogEntry`);
dict cards are modelled as records whose absent keys default to the values
produced by Python's `tool.get(k) or ""` / `bool(tool.get(k))` accesses, and a
dict entry is treated as truthy. -/

set_option maxRecDepth 8000

set_option allowUnsafeReducibility true

/- Batteries seals the rational-number operations; reopening them locally lets
concrete runs of the engine be checked by plain kernel reduction. -/
attribute [local semireducible] Rat.add Rat.ofScientific

abbrev PyStr := List Char

def pystr (s : String) : PyStr := s.toList

/-- Python `str.lower()` on one character (ASCII range, which is all that the
engine's matching can distinguish: the tokenizer regex is `[a-z0-9_]+`). -/
def pyLowerChar (c : Char) : Char :=
  match c with
  | 'A' => 'a' | 'B' => 'b' | 'C' => 'c' | 'D' => 'd' | 'E' => 'e' | 'F' => 'f'
  | 'G' => 'g' | 'H' => 'h' | 'I' => 'i' | 'J' => 'j' | 'K' => 'k' | 'L' => 'l'
  | 'M' => 'm' | 'N' => 'n' | 'O' => 'o' | 'P' => 'p' | 'Q' => 'q' | 'R' => 'r'
  | 'S' => 's' | 'T' => 't' | 'U' => 'u' | 'V' => 'v' | 'W' => 'w' | 'X' => 'x'
  | 'Y' => 'y' | 'Z' => 'z'
  | other => other

def pyLower (s : PyStr) : PyStr := s.map pyLowerChar

/-- Python `str.strip()`-whitespace (ASCII range). -/
def pyIsSpace (c : Char) : Bool :=
  c == ' ' || c == '\t' || c == '\n' || c == '\r' || c == '\x0b' || c == '\x0c'

def pyStrip (s : PyStr) : PyStr :=
  ((s.dropWhile pyIsSpace).reverse.dropWhile pyIsSpace).reverse

/-- Python `needle in hay` for strings: `needle` occurs contiguously in `hay`
(the empty string occurs in everything). -/
def pyIn (needle hay : PyStr) : Bool := decide (needle <:+: hay)

/-- `" ".join(parts)`. -/
def joinSpace (parts : List PyStr) : PyStr := List.intercalate (pystr " ") parts

/-- `"\n".join(parts)`. -/
def joinNewline (parts : List PyStr) : PyStr := List.intercalate (pystr "\n") parts

/-- A character matched by `TOOL_WORD_RE = re.compile(r"[a-z0-9_]+")`. -/
def isWordChar (c : Char) : Bool :=
  ('a' ≤ c && c ≤ 'z') || ('0' ≤ c && c ≤ '9') || c == '_'

/-- `re.findall` for `[a-z0-9_]+`: the maximal runs of word characters, in
order.  `acc` holds the reversed run currently being read. -/
def wordRuns : PyStr → PyStr → List PyStr
  | [], [] => []
  | [], acc => [acc.reverse]
  | c :: rest, acc =>
    if isWordChar c then wordRuns rest (c :: acc)
    else if acc.isEmpty then wordRuns rest []
    else acc.reverse :: wordRuns rest []

def pyFindall (s : PyStr) : List PyStr := wordRuns s []

/-- `_tokens(value)`: `TOOL_WORD_RE.findall((value or "").lower())`. -/
def pyTokens (value : PyStr) : List PyStr := pyFindall (pyLower value)

/-- `QUERY_STOP_TOKENS` from `tool_chat_static.py`. -/
def QUERY_STOP_TOKENS : List PyStr :=
  [pystr "a", pystr "an", pystr "and", pystr "are", pystr "be", pystr "can",
   pystr "for", pystr "from", pystr "how", pystr "i", pystr "in", pystr "is",
   pystr "me", pystr "of", pystr "on", pystr "please", pystr "that",
   pystr "the", pystr "to", pystr "what", pystr "which", pystr "with",
   pystr "you"]

/-- `LIST_INTENT_TOKENS` from `tool_chat_static.py`. -/
def LIST_INTENT_TOKENS : List PyStr :=
  [pystr "all", pystr "category", pystr "categories", pystr "list",
   pystr "name", pystr "names", pystr "related", pystr "tool", pystr "tools"]

/-- `MULTI_TOOL_QUERY_PHRASES` from `tool_chat_static.py`. -/
def MULTI_TOOL_QUERY_PHRASES : List PyStr :=
  [pystr "all tools", pystr "list tools", pystr "list of tools",
   pystr "names of tools", pystr "which tools", pystr "what tools",
   pystr "what are the tools"]

def ALL_TOOLS_QUERY_PHRASE : PyStr := pystr "all tools"

def UNKNOWN_CATEGORY_LABEL : PyStr := pystr "Unknown"

def UNKNOWN_TOOL_TITLE : PyStr := pystr "Unknown tool"

def YES_TEXT : PyStr := pystr "yes"

def NO_TEXT : PyStr := pystr "no"

def TOOL_TOKEN : PyStr := pystr "tool"

def TOOLS_TOKEN : PyStr := pystr "tools"

/-- `_query_signal_tokens(value)`: tokens of length at least 2 that are not
stop words. -/
def querySignalTokens (value : PyStr) : List PyStr :=
  (pyTokens value).filter
    (fun token => 2 ≤ token.length && !(QUERY_STOP_TOKENS.contains token))

/-- A dict-shaped tool card; each text field models `tool.get(k) or ""` and
each flag models `bool(tool.get(k))`. -/
structure ToolCard where
  id : PyStr := []
  title : PyStr := []
  description : PyStr := []
  detailedDescription : PyStr := []
  path : PyStr := []
  categoryId : PyStr := []
  offlineEnabled : Bool := false
  authRequired : Bool := false
  deriving DecidableEq, Repr

/-- One entry of the raw catalog list: a dict card, or any non-dict value. -/
inductive CatalogEntry where
  | card (tool : ToolCard)
  | nonDict
  deriving DecidableEq, Repr

/-- `(x or "").strip().lower()`, the normalization applied to card fields. -/
def normField (s : PyStr) : PyStr := pyLower (pyStrip s)

/-- `_score_tool(tool, query, current_tool_id, explicit_tool_ids)`.  The
accumulating `score += w` statements are modelled by a fold over the signal
tokens after the fixed additions. -/
def scoreTool (tool : ToolCard) (query : PyStr) (currentToolId : Option PyStr)
    (explicitToolIds : List PyStr) : ℚ :=
  let q := pyLower query
  let current := normField (currentToolId.getD [])
  let toolId := normField tool.id
  let title := normField tool.title
  let description := normField tool.description
  let detailed := normField tool.detailedDescription
  let path := normField tool.path
  let textBlob := joinSpace [toolId, title, description, detailed, path]
  let score : ℚ := 0
  let score := if !toolId.isEmpty && explicitToolIds.contains toolId then score + 10 else score
  let score := if !current.isEmpty && toolId == current
      && (explicitToolIds.isEmpty || explicitToolIds.contains current)
    then score + 3 else score
  let score := if !toolId.isEmpty && pyIn toolId q then score + 6 else score
  let score := if !title.isEmpty && pyIn title q then score + 5 else score
  let score := if !path.isEmpty && pyIn path q then score + 4 else score
  (querySignalTokens q).foldl (fun score token =>
    let score := if pyIn token toolId then score + 2 else score
    let score := if pyIn token title then score + 1.8 else score
    let score := if pyIn token description then score + 1.3 else score
    let score := if pyIn token detailed then score + 1.0 else score
    if pyIn token textBlob then score + 0.4 else score) score

/-- `_explicit_tool_ids(query, cards)`.  Python accumulates a `set`; this list
has the same members and the same emptiness, which is all any caller reads. -/
def explicitToolIds (query : PyStr) (cards : List CatalogEntry) : List PyStr :=
  let q := pyLower (pyStrip query)
  if q.isEmpty then []
  else
    cards.filterMap (fun entry =>
      match entry with
      | .nonDict => none
      | .card tool =>
        let toolId := normField tool.id
        let title := normField tool.title
        let path := normField tool.path
        if toolId.isEmpty then none
        else if pyIn toolId q || (!path.isEmpty && pyIn path q)
            || (!title.isEmpty && pyIn title q)
        then some toolId else none)

/-- `_is_multi_tool_request(query)`. -/
def isMultiToolRequest (query : PyStr) : Bool :=
  let q := pyLower (pyStrip query)
  if q.isEmpty then false
  else if MULTI_TOOL_QUERY_PHRASES.any (fun phrase => pyIn phrase q) then true
  else
    let tokens := pyTokens q
    let hasToolWord := tokens.contains TOOL_TOKEN || tokens.contains TOOLS_TOKEN
    let hasListIntent := tokens.any (fun t => LIST_INTENT_TOKENS.contains t)
    hasToolWord && hasListIntent

/-- The exceptions the embedded code can raise. -/
inductive PyError where
  | nameError
  | attributeError
  deriving DecidableEq, Repr

/-- `_is_offline_list_request(query)`.  The body reads `OFFLINE_QUERY_PHRASES`,
a name imported from `tool_chat_static` but defined nowhere in the source; the
first parameter models whether that name resolves (`none` means evaluating it
raises `NameError`). -/
def isOfflineListRequest (offlineQueryPhrases : Option (List PyStr))
    (query : PyStr) : Except PyError Bool :=
  let q := pyLower (pyStrip query)
  if q.isEmpty || !isMultiToolRequest q then .ok false
  else
    match offlineQueryPhrases with
    | none => .error .nameError
    | some phrases => .ok (phrases.any (fun phrase => pyIn phrase q))

/-- Modelled from the spec: the value of the missing name
`OFFLINE_QUERY_PHRASES` (imported by `tool_chat_views` from
`tool_chat_static`, where it is not defined).  Spec section 4.5 describes list
selection with no offline branch at all, so the spec-faithful resolution is
the empty collection, under which `_is_offline_list_request` always returns
`False` and the offline branch is dead. -/
def OFFLINE_QUERY_PHRASES_spec : List PyStr := []

/-- `[tool for tool in cards if isinstance(tool, dict)]`. -/
def validCards (cards : List CatalogEntry) : List ToolCard :=
  cards.filterMap (fun entry =>
    match entry with
    | .card tool => some tool
    | .nonDict => none)

/-- A category map (`dict[str, str]`), as an association list. -/
abbrev CategoryMap := List (PyStr × PyStr)

/-- Python `m.get(key, default)`. -/
def pyDictGet (m : CategoryMap) (key default : PyStr) : PyStr :=
  match m.lookup key with
  | some v => v
  | none => default

/-- `_select_related_tools_for_list(cards=…, category_map=…, query=…,
scored=…, explicit_ids=…)`. -/
def selectRelatedToolsForList (offlineQueryPhrases : Option (List PyStr))
    (cards : List CatalogEntry) (categoryMap : CategoryMap) (query : PyStr)
    (scored : List (ℚ × ToolCard)) (explicitIds : List PyStr) :
    Except PyError (List ToolCard) :=
  let q := pyLower (pyStrip query)
  let valid := validCards cards
  if valid.isEmpty then .ok []
  else if pyIn ALL_TOOLS_QUERY_PHRASE q then .ok valid
  else do
    let offline ← isOfflineListRequest offlineQueryPhrases q
    if offline then
      let offlineTools := valid.filter (fun tool => tool.offlineEnabled)
      pure (if offlineTools.isEmpty then valid.take 5 else offlineTools)
    else
      let focusTokens := (querySignalTokens q).filter
        (fun token => !(LIST_INTENT_TOKENS.contains token))
      let related := scored.filterMap (fun st =>
        if st.1 ≤ 0 then none
        else
          let tool := st.2
          let toolId := normField tool.id
          let title := normField tool.title
          let description := normField tool.description
          let path := normField tool.path
          let categoryId := normField tool.categoryId
          let categoryLabel := pyLower (pyStrip (pyDictGet categoryMap categoryId []))
          let searchable :=
            joinSpace [toolId, title, description, path, categoryId, categoryLabel]
          let explicitMatch := !toolId.isEmpty && explicitIds.contains toolId
          let tokenMatch := !focusTokens.isEmpty
            && focusTokens.any (fun token => pyIn token searchable)
          if explicitMatch || tokenMatch then some tool else none)
      if !related.isEmpty then pure related
      else
        let fallback := scored.filterMap (fun st => if 0 < st.1 then some st.2 else none)
        pure (if fallback.isEmpty then valid.take 5 else fallback.take 5)

/-- Descending order on score, the key of
`sorted(…, key=lambda item: item[0], reverse=True)`. -/
def scoreDescRel : (ℚ × ToolCard) → (ℚ × ToolCard) → Prop := fun a b => b.1 ≤ a.1

instance : DecidableRel scoreDescRel := fun a b => inferInstanceAs (Decidable (b.1 ≤ a.1))

instance : IsTotal (ℚ × ToolCard) scoreDescRel := ⟨fun a b => le_total b.1 a.1⟩

instance : IsTrans (ℚ × ToolCard) scoreDescRel := ⟨fun _ _ _ h1 h2 => le_trans h2 h1⟩

/-- The `scored` list of `_build_context`: the dict cards scored and stably
sorted by descending score.  Python's `sorted(…, reverse=True)` is a stable
descending sort; a stable sort's output is uniquely determined by its key, and
insertion sort with `scoreDescRel` (which keeps an earlier element in front of
a later one with the same score) produces that same list. -/
def scoredCards (cards : List CatalogEntry) (query : PyStr)
    (currentToolId : Option PyStr) (explicitIds : List PyStr) :
    List (ℚ × ToolCard) :=
  List.insertionSort scoreDescRel
    ((validCards cards).map
      (fun tool => (scoreTool tool query currentToolId explicitIds, tool)))

/-- `_tool_context_line(tool, category_label)`:
`TOOL_CONTEXT_TEMPLATE.format(…)` spelled out as concatenation. -/
def toolContextLine (tool : ToolCard) (categoryLabel : PyStr) : PyStr :=
  let title := if tool.title.isEmpty then UNKNOWN_TOOL_TITLE else tool.title
  pystr "- " ++ title ++ pystr " (id: " ++ tool.id ++ pystr ", category: "
    ++ categoryLabel ++ pystr ", path: " ++ tool.path
    ++ pystr ")\n  Short: " ++ tool.description
    ++ pystr "\n  Details: " ++ tool.detailedDescription
    ++ pystr "\n  Offline: " ++ (if tool.offlineEnabled then YES_TEXT else NO_TEXT)
    ++ pystr ", Auth required: " ++ (if tool.authRequired then YES_TEXT else NO_TEXT)

/-- The category label computed in `_build_context`'s render loop:
`category_map.get(category_id, category_id or UNKNOWN_CATEGORY_LABEL)`. -/
def categoryLabelFor (categoryMap : CategoryMap) (tool : ToolCard) : PyStr :=
  let categoryId := normField tool.categoryId
  pyDictGet categoryMap categoryId
    (if categoryId.isEmpty then UNKNOWN_CATEGORY_LABEL else categoryId)

/-- The render loop of `_build_context`: one context line per selected entry.
A non-dict entry has no `.get`, so rendering it raises `AttributeError`. -/
def renderToolLines (categoryMap : CategoryMap) :
    List CatalogEntry → Except PyError (List PyStr)
  | [] => .ok []
  | .nonDict :: _ => .error .attributeError
  | .card tool :: rest => do
    let lines ← renderToolLines categoryMap rest
    pure (toolContextLine tool (categoryLabelFor categoryMap tool) :: lines)

/-- The `selected` list of `_build_context`. -/
def buildSelection (offlineQueryPhrases : Option (List PyStr))
    (cards : List CatalogEntry) (categoryMap : CategoryMap) (query : PyStr)
    (currentToolId : Option PyStr) : Except PyError (List CatalogEntry) :=
  let explicitIds := explicitToolIds query cards
  let scored := scoredCards cards query currentToolId explicitIds
  let topTools := (scored.take 3).filterMap
    (fun st => if 0 < st.1 then some st.2 else none)
  if isMultiToolRequest query then
    (selectRelatedToolsForList offlineQueryPhrases cards categoryMap query
        scored explicitIds).map
      (fun tools => tools.map CatalogEntry.card)
  else
    match scored.head? with
    | some (bestScore, bestTool) =>
      if 2 ≤ bestScore then .ok [CatalogEntry.card bestTool]
      else if !topTools.isEmpty then .ok (topTools.map CatalogEntry.card)
      else .ok (cards.take 3)
    | none =>
      if !topTools.isEmpty then .ok (topTools.map CatalogEntry.card)
      else .ok (cards.take 3)

/-- `_build_context(cards=…, category_map=…, query=…, current_tool_id=…)`:
the joined context text and the best-matched tool. -/
def buildContext (offlineQueryPhrases : Option (List PyStr))
    (cards : List CatalogEntry) (categoryMap : CategoryMap) (query : PyStr)
    (currentToolId : Option PyStr) : Except PyError (PyStr × Option ToolCard) := do
  let explicitIds := explicitToolIds query cards
  let scored := scoredCards cards query currentToolId explicitIds
  let selected ← buildSelection offlineQueryPhrases cards categoryMap query currentToolId
  let lines ← renderToolLines categoryMap selected
  let best :=
    match scored.head? with
    | some (bestScore, bestTool) => if 0 < bestScore then some bestTool else none
    | none => none
  pure (joinNewline lines, best)

/-- The names bound at top level by `tool_chat_static.py`. -/
def toolChatStaticDefinedNames : List String :=
  ["re", "TOOL_WORD_RE", "MAX_HISTORY_ITEMS", "MAX_HISTORY_CHARS",
   "QUERY_STOP_TOKENS", "LIST_INTENT_TOKENS", "MULTI_TOOL_QUERY_PHRASES",
   "ALL_TOOLS_QUERY_PHRASE", "ENV_TOOL_METADATA_DIR", "ENV_OPENAI_API_KEY",
   "ENV_OPENAI_MODEL", "DEFAULT_OPENAI_MODEL", "SERVICE_CARDS_FILENAME",
   "CATEGORIES_FILENAME", "BACKEND_METADATA_PATH_PARTS",
   "ROOT_METADATA_PATH_PARTS", "FRONTEND_METADATA_PATH_PARTS",
   "METADATA_NOT_FOUND_PREFIX", "NO_HISTORY_TEXT", "NONE_TOOL_ID_TEXT",
   "SYSTEM_PROMPT", "USER_PROMPT_TEMPLATE", "ERROR_MESSAGE_REQUIRED",
   "ERROR_CHAT_NOT_CONFIGURED", "ERROR_OPENAI_SDK_MISSING",
   "ERROR_TOOL_METADATA_UNAVAILABLE", "ERROR_ASSISTANT_REQUEST_FAILED",
   "FALLBACK_NO_TOOL", "UNKNOWN_TOOL_TITLE", "THIS_TOOL_TITLE",
   "UNKNOWN_CATEGORY_LABEL", "YES_TEXT", "NO_TEXT", "AUTH_REQUIRED_TEXT",
   "AUTH_NOT_REQUIRED_TEXT", "OFFLINE_ENABLED_TEXT", "OFFLINE_DISABLED_TEXT",
   "TOOL_CONTEXT_TEMPLATE", "FALLBACK_ANSWER_TEMPLATE", "HISTORY_ROLE_USER",
   "HISTORY_ROLE_ASSISTANT", "HISTORY_ITEM_TEMPLATE", "OPENAI_ROLE_SYSTEM",
   "OPENAI_ROLE_USER", "TOOL_TOKEN", "TOOLS_TOKEN"]

/-- The names `tool_chat_views.py` imports from `.tool_chat_static`
(lines 11 through 58). -/
def toolChatViewsImportList : List String :=
  ["ALL_TOOLS_QUERY_PHRASE", "AUTH_NOT_REQUIRED_TEXT", "AUTH_REQUIRED_TEXT",
   "BACKEND_METADATA_PATH_PARTS", "CATEGORIES_FILENAME",
   "DEFAULT_OPENAI_MODEL", "ENV_OPENAI_API_KEY", "ENV_OPENAI_MODEL",
   "ENV_TOOL_METADATA_DIR", "ERROR_ASSISTANT_REQUEST_FAILED",
   "ERROR_CHAT_NOT_CONFIGURED", "ERROR_MESSAGE_REQUIRED",
   "ERROR_OPENAI_SDK_MISSING", "ERROR_TOOL_METADATA_UNAVAILABLE",
   "FALLBACK_NO_TOOL", "FALLBACK_ANSWER_TEMPLATE",
   "FRONTEND_METADATA_PATH_PARTS", "HISTORY_ITEM_TEMPLATE",
   "HISTORY_ROLE_ASSISTANT", "HISTORY_ROLE_USER", "LIST_INTENT_TOKENS",
   "MAX_HISTORY_CHARS", "MAX_HISTORY_ITEMS", "METADATA_NOT_FOUND_PREFIX",
   "MULTI_TOOL_QUERY_PHRASES", "NO_TEXT", "NO_HISTORY_TEXT",
   "NONE_TOOL_ID_TEXT", "OFFLINE_DISABLED_TEXT", "OFFLINE_ENABLED_TEXT",
   "OFFLINE_QUERY_PHRASES", "OPENAI_ROLE_SYSTEM", "OPENAI_ROLE_USER",
   "ROOT_METADATA_PATH_PARTS", "QUERY_STOP_TOKENS", "SERVICE_CARDS_FILENAME",
   "SYSTEM_PROMPT", "THIS_TOOL_TITLE", "TOOL_WORD_RE", "TOOL_CONTEXT_TEMPLATE",
   "TOOL_TOKEN", "TOOLS_TOKEN", "UNKNOWN_CATEGORY_LABEL", "UNKNOWN_TOOL_TITLE",
   "USER_PROMPT_TEMPLATE", "YES_TEXT"]

/-- The space-joined concatenation of the five normalized text fields, the
`text_blob` of `_score_tool`. -/
def scoreTextBlob (tool : ToolCard) : PyStr :=
  joinSpace [normField tool.id, normField tool.title, normField tool.description,
             normField tool.detailedDescription, normField tool.path]

/-- Spec 4.3 item 4 (claim side): the weight one signal token earns against a
card, the catch-all stacking on top of the specific terms. -/
def tokenTermScore (tool : ToolCard) (token : PyStr) : ℚ :=
  (if pyIn token (normField tool.id) then 2 else 0)
    + (if pyIn token (normField tool.title) then 1.8 else 0)
    + (if pyIn token (normField tool.description) then 1.3 else 0)
    + (if pyIn token (normField tool.detailedDescription) then 1.0 else 0)
    + (if pyIn token (scoreTextBlob tool) then 0.4 else 0)

/-- Claim side: a normalized text field counts as a literal-substring match of
a text when it is non-empty and occurs contiguously in it (an absent field
never matches). -/
def occursIn (field text : PyStr) : Bool := !field.isEmpty && pyIn field text

/-- The token-loop body of `_score_tool` (definitionally the lambda folded in
`scoreTool`, with the let-bound fields spelled out). -/
def scoreStep (tool : ToolCard) (score : ℚ) (token : PyStr) : ℚ :=
  let score := if pyIn token (normField tool.id) then score + 2 else score
  let score := if pyIn token (normField tool.title) then score + 1.8 else score
  let score := if pyIn token (normField tool.description) then score + 1.3 else score
  let score := if pyIn token (normField tool.detailedDescription) then score + 1.0 else score
  if pyIn token (scoreTextBlob tool) then score + 0.4 else score

/-- The value `score` carries into the token loop of `_score_tool`
(definitionally the fixed-bonus prefix of `scoreTool`). -/
def scoreStart (tool : ToolCard) (query : PyStr) (cur : Option PyStr)
    (ids : List PyStr) : ℚ :=
  let score : ℚ := 0
  let score := if !(normField tool.id).isEmpty && ids.contains (normField tool.id)
    then score + 10 else score
  let score := if !(normField (cur.getD [])).isEmpty
      && normField tool.id == normField (cur.getD [])
      && (ids.isEmpty || ids.contains (normField (cur.getD [])))
    then score + 3 else score
  let score := if !(normField tool.id).isEmpty && pyIn (normField tool.id) (pyLower query)
    then score + 6 else score
  let score := if !(normField tool.title).isEmpty && pyIn (normField tool.title) (pyLower query)
    then score + 5 else score
  if !(normField tool.path).isEmpty && pyIn (normField tool.path) (pyLower query)
    then score + 4 else score

/- Concrete catalog data used to exercise the engine on closed inputs
(taken from the repository's own context-selection tests). -/

def wImage : ToolCard :=
  { id := pystr "image-compressor", title := pystr "Image Compressor",
    description := pystr "Compress images locally.",
    detailedDescription := pystr "Reduce image file size.",
    path := pystr "/image-compressor", categoryId := pystr "utilities" }

def wInvoice : ToolCard :=
  { id := pystr "invoice-generator", title := pystr "Invoice / Receipt Generator",
    description := pystr "Create invoices.",
    detailedDescription := pystr "Create professional invoice PDFs.",
    path := pystr "/invoice-generator", categoryId := pystr "business" }

def wCards : List ToolCard := [wImage, wInvoice]

def wMap : CategoryMap :=
  [(pystr "utilities", pystr "Utilities"), (pystr "business", pystr "Business")]

def wQuerySingle : PyStr := pystr "tell me about image compressor"

def wQueryList : PyStr := pystr "what are the names of tools related to image"

/- ------------------------------------------------------------------ -/
/- Helper lemmas: characters, lowering, stripping.                     -/
/- ------------------------------------------------------------------ -/

theorem pyLowerChar_cases (d : Char) :
    pyLowerChar d = d
      ∨ d ∈ ['A', 'B', 'C', 'D', 'E', 'F', 'G', 'H', 'I', 'J', 'K', 'L', 'M',
             'N', 'O', 'P', 'Q', 'R', 'S', 'T', 'U', 'V', 'W', 'X', 'Y', 'Z'] := by
  unfold pyLowerChar
  split <;> first | (left; rfl) | (right; decide)

theorem pyLowerChar_idem (c : Char) : pyLowerChar (pyLowerChar c) = pyLowerChar c := by
  rcases pyLowerChar_cases c with hc | hc
  · simp only [hc]
  · fin_cases hc <;> rfl

theorem pyIsSpace_pyLowerChar (c : Char) : pyIsSpace (pyLowerChar c) = pyIsSpace c := by
  rcases pyLowerChar_cases c with hc | hc
  · simp only [hc]
  · fin_cases hc <;> rfl

theorem isWordChar_eq_false_of_space {c : Char} (h : pyIsSpace c = true) :
    isWordChar c = false := by
  unfold pyIsSpace at h
  simp only [Bool.or_eq_true, beq_iff_eq] at h
  rcases h with ((((h | h) | h) | h) | h) | h <;> subst h <;> decide

theorem pyLower_pyLower (s : PyStr) : pyLower (pyLower s) = pyLower s := by
  induction s with
  | nil => rfl
  | cons c t ih =>
    show pyLowerChar (pyLowerChar c) :: pyLower (pyLower t) = pyLowerChar c :: pyLower t
    rw [pyLowerChar_idem, ih]

theorem dropWhile_head_eq_false {p : Char → Bool} {l t : PyStr} {c : Char}
    (h : l.dropWhile p = c :: t) : p c = false := by
  induction l with
  | nil => simp at h
  | cons a l ih =>
    rw [List.dropWhile_cons] at h
    by_cases hp : p a = true
    · rw [if_pos hp] at h
      exact ih h
    · rw [if_neg hp] at h
      cases h
      simpa using hp

theorem dropWhile_idem (p : Char → Bool) (l : PyStr) :
    (l.dropWhile p).dropWhile p = l.dropWhile p := by
  cases h : l.dropWhile p with
  | nil => rfl
  | cons c t =>
    rw [List.dropWhile_cons, if_neg]
    simp [dropWhile_head_eq_false h]

theorem dropWhile_is_suffix (p : Char → Bool) (l : PyStr) :
    ∃ u, (∀ c ∈ u, p c = true) ∧ l = u ++ l.dropWhile p := by
  induction l with
  | nil => exact ⟨[], by simp, rfl⟩
  | cons a l ih =>
    rw [List.dropWhile_cons]
    by_cases hp : p a = true
    · obtain ⟨u, hu, he⟩ := ih
      refine ⟨a :: u, ?_, ?_⟩
      · intro c hc
        rcases List.mem_cons.mp hc with h | h
        · subst h; exact hp
        · exact hu c h
      · rw [if_pos hp, List.cons_append, ← he]
    · exact ⟨[], by simp, by rw [if_neg hp]; rfl⟩

theorem pyStrip_reverse (s : PyStr) :
    (pyStrip s).reverse = ((s.dropWhile pyIsSpace).reverse).dropWhile pyIsSpace := by
  unfold pyStrip
  rw [List.reverse_reverse]

theorem pyStrip_head_not {s : PyStr} {c : Char} {t : PyStr} (h : pyStrip s = c :: t) :
    pyIsSpace c = false := by
  obtain ⟨u, _, he⟩ := dropWhile_is_suffix pyIsSpace (s.dropWhile pyIsSpace).reverse
  have hA : s.dropWhile pyIsSpace = (pyStrip s) ++ u.reverse := by
    have := congrArg List.reverse he
    rw [List.reverse_reverse, List.reverse_append] at this
    rw [this, ← pyStrip_reverse, List.reverse_reverse]
  rw [h] at hA
  exact dropWhile_head_eq_false hA

theorem pyStrip_getLast_not {s : PyStr} {c : Char} {t : PyStr}
    (h : (pyStrip s).reverse = c :: t) : pyIsSpace c = false := by
  rw [pyStrip_reverse] at h
  exact dropWhile_head_eq_false h

theorem pyStrip_idem (s : PyStr) : pyStrip (pyStrip s) = pyStrip s := by
  have h1 : (pyStrip s).dropWhile pyIsSpace = pyStrip s := by
    cases h : pyStrip s with
    | nil => rfl
    | cons c t =>
      rw [List.dropWhile_cons, if_neg]
      simp [pyStrip_head_not h]
  show (((pyStrip s).dropWhile pyIsSpace).reverse.dropWhile pyIsSpace).reverse = pyStrip s
  rw [h1, pyStrip_reverse, dropWhile_idem, ← pyStrip_reverse, List.reverse_reverse]

theorem pyStrip_pyLower (s : PyStr) : pyStrip (pyLower s) = pyLower (pyStrip s) := by
  have hc : (pyIsSpace ∘ pyLowerChar) = pyIsSpace := funext fun c => pyIsSpace_pyLowerChar c
  show ((((s.map pyLowerChar).dropWhile pyIsSpace).reverse).dropWhile pyIsSpace).reverse
      = ((s.dropWhile pyIsSpace).reverse.dropWhile pyIsSpace).reverse.map pyLowerChar
  rw [List.dropWhile_map, hc, ← List.map_reverse, List.dropWhile_map, hc, ← List.map_reverse]

theorem norm_idem (s : PyStr) :
    pyLower (pyStrip (pyLower (pyStrip s))) = pyLower (pyStrip s) := by
  rw [pyStrip_pyLower, pyStrip_idem, pyLower_pyLower]

/- ------------------------------------------------------------------ -/
/- Helper lemmas: substring occurrence.                                -/
/- ------------------------------------------------------------------ -/

theorem pyIn_iff {needle hay : PyStr} : pyIn needle hay = true ↔ needle <:+: hay := by
  simp [pyIn]

theorem infix_of_reverse {l₁ l₂ : PyStr} (h : l₁ <:+: l₂) : l₁.reverse <:+: l₂.reverse := by
  obtain ⟨u, v, huv⟩ := h
  exact ⟨v.reverse, u.reverse, by rw [← huv]; simp⟩

theorem infix_trans {a b c : PyStr} (h1 : a <:+: b) (h2 : b <:+: c) : a <:+: c := by
  obtain ⟨u, v, hb⟩ := h1
  obtain ⟨x, y, hc⟩ := h2
  exact ⟨x ++ u, v ++ y, by rw [← hc, ← hb]; simp [List.append_assoc]⟩

theorem mem_of_isInfix {pat hay : PyStr} {c : Char} (h : pat <:+: hay) (hc : c ∈ pat) :
    c ∈ hay := by
  obtain ⟨u, v, huv⟩ := h
  rw [← huv]
  simp [hc]

theorem infix_dropWhile {p : Char → Bool} {pat hay : PyStr}
    (hh : ∀ c, pat.head? = some c → p c = false)
    (h : pat <:+: hay) : pat <:+: hay.dropWhile p := by
  obtain ⟨u, v, huv⟩ := h
  subst huv
  induction u with
  | nil =>
    rw [List.nil_append]
    cases hp : pat with
    | nil => subst hp; exact ⟨[], v.dropWhile p, by simp⟩
    | cons c t =>
      have hc : p c = false := hh c (by rw [hp]; rfl)
      subst hp
      rw [List.cons_append, List.dropWhile_cons, if_neg (by simp [hc])]
      exact ⟨[], v, by simp⟩
  | cons a u ih =>
    simp only [List.cons_append]
    rw [List.dropWhile_cons]
    by_cases hp : p a = true
    · rw [if_pos hp]
      exact ih
    · rw [if_neg hp]
      exact ⟨a :: u, v, by simp⟩

theorem infix_pyStrip {pat hay : PyStr}
    (hh : ∀ c, pat.head? = some c → pyIsSpace c = false)
    (hl : ∀ c, (pat.reverse).head? = some c → pyIsSpace c = false)
    (h : pat <:+: hay) : pat <:+: pyStrip hay := by
  have h1 : pat <:+: hay.dropWhile pyIsSpace := infix_dropWhile hh h
  have h2 := infix_of_reverse h1
  have h3 : pat.reverse <:+: ((hay.dropWhile pyIsSpace).reverse).dropWhile pyIsSpace :=
    infix_dropWhile hl h2
  have h4 := infix_of_reverse h3
  rw [List.reverse_reverse, ← pyStrip_reverse, List.reverse_reverse] at h4
  exact h4

theorem pyStrip_isInfix (s : PyStr) : pyStrip s <:+: s := by
  obtain ⟨u, _, hu⟩ := dropWhile_is_suffix pyIsSpace s
  obtain ⟨w, _, hw⟩ := dropWhile_is_suffix pyIsSpace (s.dropWhile pyIsSpace).reverse
  refine ⟨u, w.reverse, ?_⟩
  have hA : s.dropWhile pyIsSpace = (pyStrip s) ++ w.reverse := by
    have := congrArg List.reverse hw
    rw [List.reverse_reverse, List.reverse_append] at this
    rw [this, ← pyStrip_reverse, List.reverse_reverse]
  rw [List.append_assoc, ← hA, ← hu]

theorem infix_of_infix_pyStrip {pat hay : PyStr} (h : pat <:+: pyStrip hay) :
    pat <:+: hay :=
  infix_trans h (pyStrip_isInfix hay)

theorem all_space_of_pyStrip_eq_nil {s : PyStr} (h : pyStrip s = []) :
    ∀ c ∈ s, pyIsSpace c = true := by
  intro c hc
  rw [← List.takeWhile_append_dropWhile pyIsSpace s] at hc
  rcases List.mem_append.mp hc with h1 | h1
  · exact List.mem_takeWhile_imp h1
  · have hB : ((s.dropWhile pyIsSpace).reverse).dropWhile pyIsSpace = [] := by
      rw [← pyStrip_reverse, h]; rfl
    have := List.dropWhile_eq_nil_iff.mp hB
    exact this c (List.mem_reverse.mpr h1)

theorem pyIn_norm {pat : PyStr}
    (hh : ∀ c, pat.head? = some c → pyIsSpace c = false)
    (hl : ∀ c, (pat.reverse).head? = some c → pyIsSpace c = false) (s : PyStr) :
    pyIn pat (pyLower (pyStrip s)) = pyIn pat (pyLower s) := by
  rw [← pyStrip_pyLower]
  simp only [pyIn, decide_eq_decide]
  constructor
  · exact infix_of_infix_pyStrip
  · exact infix_pyStrip hh hl

theorem pyIn_norm_c {pat : PyStr} {a b : Char}
    (ha : pat.head? = some a) (hb : (pat.reverse).head? = some b)
    (hwa : pyIsSpace a = false) (hwb : pyIsSpace b = false) (s : PyStr) :
    pyIn pat (pyLower (pyStrip s)) = pyIn pat (pyLower s) := by
  refine pyIn_norm ?_ ?_ s
  · intro c hc; rw [ha] at hc; cases hc; exact hwa
  · intro c hc; rw [hb] at hc; cases hc; exact hwb

theorem normField_head_not (x : PyStr) :
    ∀ c, (normField x).head? = some c → pyIsSpace c = false := by
  intro c hc
  unfold normField pyLower at hc
  rw [List.head?_map] at hc
  cases h : pyStrip x with
  | nil => rw [h] at hc; simp at hc
  | cons d t =>
    rw [h] at hc
    simp only [List.head?_cons, Option.map_some'] at hc
    cases hc
    rw [pyIsSpace_pyLowerChar]
    exact pyStrip_head_not h

theorem normField_getLast_not (x : PyStr) :
    ∀ c, ((normField x).reverse).head? = some c → pyIsSpace c = false := by
  intro c hc
  unfold normField at hc
  rw [show (pyLower (pyStrip x)).reverse = pyLower ((pyStrip x).reverse) by
        unfold pyLower; rw [List.map_reverse]] at hc
  unfold pyLower at hc
  rw [List.head?_map] at hc
  cases h : (pyStrip x).reverse with
  | nil => rw [h] at hc; simp at hc
  | cons d t =>
    rw [h] at hc
    simp only [List.head?_cons, Option.map_some'] at hc
    cases hc
    rw [pyIsSpace_pyLowerChar]
    exact pyStrip_getLast_not h

/-- A normalized field occurring in the lower-cased query also occurs in the
stripped-and-lower-cased query the source compares against, and back. -/
theorem pyIn_normField_norm (x s : PyStr) :
    pyIn (normField x) (pyLower (pyStrip s)) = pyIn (normField x) (pyLower s) :=
  pyIn_norm (normField_head_not x) (normField_getLast_not x) s

/- ------------------------------------------------------------------ -/
/- Helper lemmas: the tokenizer.                                       -/
/- ------------------------------------------------------------------ -/

theorem wordRuns_cons (c : Char) (rest acc : PyStr) :
    wordRuns (c :: rest) acc =
      if isWordChar c then wordRuns rest (c :: acc)
      else if acc.isEmpty then wordRuns rest []
      else acc.reverse :: wordRuns rest [] := rfl

theorem wordRuns_nil (acc : PyStr) :
    wordRuns [] acc = if acc.isEmpty then [] else [acc.reverse] := by
  cases acc <;> rfl

theorem wordRuns_all_notword {t : PyStr} (ht : ∀ c ∈ t, isWordChar c = false) :
    ∀ acc, wordRuns t acc = wordRuns [] acc := by
  induction t with
  | nil => intro acc; rfl
  | cons c t ih =>
    intro acc
    have hc : isWordChar c = false := ht c (by simp)
    have ht' : ∀ x ∈ t, isWordChar x = false := fun x hx => ht x (by simp [hx])
    rw [wordRuns_cons, if_neg (by simp [hc]), wordRuns_nil]
    by_cases ha : acc.isEmpty = true
    · rw [if_pos ha, if_pos ha, ih ht' [], wordRuns_nil, if_pos (by rfl)]
    · rw [if_neg ha, if_neg ha, ih ht' [], wordRuns_nil, if_pos (by rfl)]

theorem wordRuns_append_notword {t : PyStr} (ht : ∀ c ∈ t, isWordChar c = false) :
    ∀ (l : PyStr) (acc), wordRuns (l ++ t) acc = wordRuns l acc := by
  intro l
  induction l with
  | nil =>
    intro acc
    rw [List.nil_append, wordRuns_all_notword ht acc]
  | cons c l ih =>
    intro acc
    rw [List.cons_append, wordRuns_cons, wordRuns_cons]
    by_cases hw : isWordChar c = true
    · rw [if_pos hw, if_pos hw]
      exact ih (c :: acc)
    · rw [if_neg hw, if_neg hw]
      by_cases ha : acc.isEmpty = true
      · rw [if_pos ha, if_pos ha]
        exact ih []
      · rw [if_neg ha, if_neg ha, ih []]

theorem wordRuns_notword_lead {u : PyStr} (hu : ∀ c ∈ u, isWordChar c = false) :
    ∀ r, wordRuns (u ++ r) [] = wordRuns r [] := by
  induction u with
  | nil => intro r; rw [List.nil_append]
  | cons c u ih =>
    intro r
    have hc : isWordChar c = false := hu c (by simp)
    have hu' : ∀ x ∈ u, isWordChar x = false := fun x hx => hu x (by simp [hx])
    rw [List.cons_append, wordRuns_cons, if_neg (by simp [hc]), if_pos (by rfl)]
    exact ih hu' r

theorem pyFindall_pyStrip (s : PyStr) : pyFindall (pyStrip s) = pyFindall s := by
  obtain ⟨u, hu, he⟩ := dropWhile_is_suffix pyIsSpace s
  obtain ⟨w, hw, hwe⟩ := dropWhile_is_suffix pyIsSpace (s.dropWhile pyIsSpace).reverse
  have hA : s.dropWhile pyIsSpace = (pyStrip s) ++ w.reverse := by
    have := congrArg List.reverse hwe
    rw [List.reverse_reverse, List.reverse_append] at this
    rw [this, ← pyStrip_reverse, List.reverse_reverse]
  have hs : s = u ++ ((pyStrip s) ++ w.reverse) := by rw [← hA, ← he]
  have hu' : ∀ c ∈ u, isWordChar c = false :=
    fun c hc => isWordChar_eq_false_of_space (hu c hc)
  have hw' : ∀ c ∈ w.reverse, isWordChar c = false :=
    fun c hc => isWordChar_eq_false_of_space (hw c (List.mem_reverse.mp hc))
  show wordRuns (pyStrip s) [] = wordRuns s []
  conv_rhs => rw [hs]
  rw [wordRuns_notword_lead hu', wordRuns_append_notword hw']

theorem pyTokens_norm (s : PyStr) : pyTokens (pyLower (pyStrip s)) = pyTokens s := by
  unfold pyTokens
  rw [pyLower_pyLower, ← pyStrip_pyLower]
  exact pyFindall_pyStrip (pyLower s)

theorem querySignalTokens_norm (s : PyStr) :
    querySignalTokens (pyLower (pyStrip s)) = querySignalTokens s := by
  unfold querySignalTokens
  rw [pyTokens_norm]

theorem pyTokens_pyLower (s : PyStr) : pyTokens (pyLower s) = pyTokens s := by
  unfold pyTokens
  rw [pyLower_pyLower]

theorem querySignalTokens_pyLower (s : PyStr) :
    querySignalTokens (pyLower s) = querySignalTokens s := by
  unfold querySignalTokens
  rw [pyTokens_pyLower]

theorem isMultiToolRequest_norm (s : PyStr) :
    isMultiToolRequest (pyLower (pyStrip s)) = isMultiToolRequest s := by
  unfold isMultiToolRequest
  rw [norm_idem]

/- ------------------------------------------------------------------ -/
/- Helper lemmas: the scoring function.                                -/
/- ------------------------------------------------------------------ -/

theorem ite_add_right (c : Prop) [Decidable c] (s a : ℚ) :
    (if c then s + a else s) = s + (if c then a else 0) := by
  split <;> simp

theorem ite_zero_nonneg {c : Prop} [Decidable c] {a : ℚ} (h : 0 ≤ a) :
    0 ≤ if c then a else 0 := by
  split
  · exact h
  · exact le_refl 0

theorem scoreTool_as_fold (tool : ToolCard) (query : PyStr) (cur : Option PyStr)
    (ids : List PyStr) :
    scoreTool tool query cur ids
      = (querySignalTokens (pyLower query)).foldl (scoreStep tool)
          (scoreStart tool query cur ids) := rfl

theorem scoreStep_eq (tool : ToolCard) (s : ℚ) (token : PyStr) :
    scoreStep tool s token = s + tokenTermScore tool token := by
  unfold scoreStep tokenTermScore
  dsimp only
  rw [ite_add_right, ite_add_right, ite_add_right, ite_add_right, ite_add_right]
  ring

theorem foldl_scoreStep (tool : ToolCard) (tokens : List PyStr) :
    ∀ s : ℚ, tokens.foldl (scoreStep tool) s
      = s + (tokens.map (tokenTermScore tool)).sum := by
  induction tokens with
  | nil => intro s; simp
  | cons t ts ih =>
    intro s
    rw [List.foldl_cons, List.map_cons, List.sum_cons, ih, scoreStep_eq]
    ring

theorem scoreStart_eq (tool : ToolCard) (query : PyStr) (cur : Option PyStr)
    (ids : List PyStr) :
    scoreStart tool query cur ids
      = (if !(normField tool.id).isEmpty && ids.contains (normField tool.id)
          then 10 else 0)
        + (if !(normField (cur.getD [])).isEmpty
              && normField tool.id == normField (cur.getD [])
              && (ids.isEmpty || ids.contains (normField (cur.getD [])))
          then 3 else 0)
        + (if !(normField tool.id).isEmpty && pyIn (normField tool.id) (pyLower query)
          then 6 else 0)
        + (if !(normField tool.title).isEmpty && pyIn (normField tool.title) (pyLower query)
          then 5 else 0)
        + (if !(normField tool.path).isEmpty && pyIn (normField tool.path) (pyLower query)
          then 4 else 0) := by
  unfold scoreStart
  dsimp only
  rw [ite_add_right, ite_add_right, ite_add_right, ite_add_right, ite_add_right]
  ring

theorem scoreTool_eq (tool : ToolCard) (query : PyStr) (cur : Option PyStr)
    (ids : List PyStr) :
    scoreTool tool query cur ids =
      (if !(normField tool.id).isEmpty && ids.contains (normField tool.id)
        then 10 else 0)
      + (if !(normField (cur.getD [])).isEmpty
            && normField tool.id == normField (cur.getD [])
            && (ids.isEmpty || ids.contains (normField (cur.getD [])))
        then 3 else 0)
      + (if !(normField tool.id).isEmpty && pyIn (normField tool.id) (pyLower query)
        then 6 else 0)
      + (if !(normField tool.title).isEmpty && pyIn (normField tool.title) (pyLower query)
        then 5 else 0)
      + (if !(normField tool.path).isEmpty && pyIn (normField tool.path) (pyLower query)
        then 4 else 0)
      + ((querySignalTokens query).map (tokenTermScore tool)).sum := by
  rw [scoreTool_as_fold, foldl_scoreStep, scoreStart_eq, querySignalTokens_pyLower]

theorem tokenTermScore_nonneg (tool : ToolCard) (token : PyStr) :
    0 ≤ tokenTermScore tool token := by
  unfold tokenTermScore
  have h2 : (0 : ℚ) ≤ 2 := by norm_num
  have h18 : (0 : ℚ) ≤ 1.8 := by norm_num
  have h13 : (0 : ℚ) ≤ 1.3 := by norm_num
  have h10 : (0 : ℚ) ≤ 1.0 := by norm_num
  have h04 : (0 : ℚ) ≤ 0.4 := by norm_num
  exact add_nonneg (add_nonneg (add_nonneg (add_nonneg
    (ite_zero_nonneg h2) (ite_zero_nonneg h18)) (ite_zero_nonneg h13)) (ite_zero_nonneg h10)) (ite_zero_nonneg h04)

theorem sum_tokenTermScore_nonneg (tool : ToolCard) (tokens : List PyStr) :
    0 ≤ (tokens.map (tokenTermScore tool)).sum := by
  apply List.sum_nonneg
  intro x hx
  obtain ⟨t, _, rfl⟩ := List.mem_map.mp hx
  exact tokenTermScore_nonneg tool t

theorem scoreTool_nonneg (tool : ToolCard) (query : PyStr) (cur : Option PyStr)
    (ids : List PyStr) : 0 ≤ scoreTool tool query cur ids := by
  rw [scoreTool_eq]
  have h10 : (0 : ℚ) ≤ 10 := by norm_num
  have h3 : (0 : ℚ) ≤ 3 := by norm_num
  have h6 : (0 : ℚ) ≤ 6 := by norm_num
  have h5 : (0 : ℚ) ≤ 5 := by norm_num
  have h4 : (0 : ℚ) ≤ 4 := by norm_num
  exact add_nonneg (add_nonneg (add_nonneg (add_nonneg (add_nonneg
    (ite_zero_nonneg h10) (ite_zero_nonneg h3)) (ite_zero_nonneg h6)) (ite_zero_nonneg h5)) (ite_zero_nonneg h4))
    (sum_tokenTermScore_nonneg tool _)

/- ------------------------------------------------------------------ -/
/- Helper lemmas: the sorted scored list.                              -/
/- ------------------------------------------------------------------ -/

theorem scoredCards_sorted (cards : List CatalogEntry) (query : PyStr)
    (cur : Option PyStr) (ids : List PyStr) :
    List.Sorted scoreDescRel (scoredCards cards query cur ids) :=
  List.sorted_insertionSort scoreDescRel _

theorem scoredCards_perm (cards : List CatalogEntry) (query : PyStr)
    (cur : Option PyStr) (ids : List PyStr) :
    (scoredCards cards query cur ids).Perm
      ((validCards cards).map (fun tool => (scoreTool tool query cur ids, tool))) :=
  List.perm_insertionSort scoreDescRel _

theorem mem_scoredCards {cards : List CatalogEntry} {query : PyStr}
    {cur : Option PyStr} {ids : List PyStr} {p : ℚ × ToolCard} :
    p ∈ scoredCards cards query cur ids ↔
      p.2 ∈ validCards cards ∧ p.1 = scoreTool p.2 query cur ids := by
  rw [(scoredCards_perm cards query cur ids).mem_iff, List.mem_map]
  constructor
  · rintro ⟨t, ht, he⟩
    rw [← he]
    exact ⟨ht, rfl⟩
  · rintro ⟨ht, he⟩
    exact ⟨p.2, ht, by rw [← he]⟩

theorem scoredCards_head_mem {cards : List CatalogEntry} {query : PyStr}
    {cur : Option PyStr} {ids : List PyStr} {p : ℚ × ToolCard}
    (h : (scoredCards cards query cur ids).head? = some p) :
    p ∈ scoredCards cards query cur ids := by
  cases hsc : scoredCards cards query cur ids with
  | nil => rw [hsc] at h; simp at h
  | cons a l =>
    rw [hsc] at h
    simp only [List.head?_cons, Option.some.injEq] at h
    subst h
    simp

theorem scoredCards_head_le {cards : List CatalogEntry} {query : PyStr}
    {cur : Option PyStr} {ids : List PyStr} {p : ℚ × ToolCard}
    (h : (scoredCards cards query cur ids).head? = some p) :
    ∀ r ∈ scoredCards cards query cur ids, r.1 ≤ p.1 := by
  intro r hr
  cases hsc : scoredCards cards query cur ids with
  | nil => rw [hsc] at hr; simp at hr
  | cons a l =>
    rw [hsc] at h
    simp only [List.head?_cons, Option.some.injEq] at h
    subst h
    have hs := scoredCards_sorted cards query cur ids
    rw [hsc] at hs hr
    rcases List.mem_cons.mp hr with h1 | h1
    · rw [h1]
    · exact (List.sorted_cons.mp hs).1 r h1

/- ------------------------------------------------------------------ -/
/- Helper lemmas: list utilities for selection.                        -/
/- ------------------------------------------------------------------ -/

theorem filterMap_guard {α β : Type} (p : α → Bool) (f : α → β) (l : List α) :
    l.filterMap (fun a => if p a then some (f a) else none)
      = (l.filter p).map f := by
  induction l with
  | nil => rfl
  | cons a l ih =>
    rw [List.filterMap_cons, List.filter_cons]
    by_cases hp : p a = true
    · simp only [hp, if_true, List.map_cons, ih]
    · simp only [hp, if_false, Bool.false_eq_true, ih]

theorem renderToolLines_ok (categoryMap : CategoryMap) (entries : List CatalogEntry)
    (h : ∀ e ∈ entries, e ≠ CatalogEntry.nonDict) :
    renderToolLines categoryMap entries
      = .ok (entries.filterMap (fun e =>
          match e with
          | .card tool => some (toolContextLine tool (categoryLabelFor categoryMap tool))
          | .nonDict => none)) := by
  induction entries with
  | nil => rfl
  | cons e rest ih =>
    cases e with
    | nonDict => exact absurd rfl (h _ (by simp))
    | card tool =>
      rw [List.filterMap_cons]
      show (renderToolLines categoryMap rest).bind _ = _
      rw [ih (fun x hx => h x (by simp [hx]))]
      rfl

/- ------------------------------------------------------------------ -/
/- Helper lemmas: the explicit-mention detector.                       -/
/- ------------------------------------------------------------------ -/

theorem pyIn_nil {a : PyStr} (h : pyIn a [] = true) : a = [] := by
  obtain ⟨u, v, huv⟩ := pyIn_iff.mp h
  have h1 := (List.append_eq_nil.mp huv).1
  exact (List.append_eq_nil.mp h1).2

theorem contains_iff_mem {l : List PyStr} {x : PyStr} :
    l.contains x = true ↔ x ∈ l := by
  show List.elem x l = true ↔ x ∈ l
  exact List.elem_iff

theorem explicitToolIds_blank {query : PyStr} (h : pyStrip query = [])
    (cards : List CatalogEntry) : explicitToolIds query cards = [] := by
  unfold explicitToolIds
  rw [h]
  rfl

theorem mem_explicitToolIds {query : PyStr} {cards : List CatalogEntry} {x : PyStr} :
    x ∈ explicitToolIds query cards ↔
      ∃ tool, CatalogEntry.card tool ∈ cards ∧ x = normField tool.id ∧ x ≠ []
        ∧ (pyIn x (pyLower (pyStrip query)) = true
           ∨ (normField tool.path ≠ []
              ∧ pyIn (normField tool.path) (pyLower (pyStrip query)) = true)
           ∨ (normField tool.title ≠ []
              ∧ pyIn (normField tool.title) (pyLower (pyStrip query)) = true)) := by
  by_cases hq : (pyLower (pyStrip query)).isEmpty = true
  · have hqn : pyLower (pyStrip query) = [] := List.isEmpty_iff.mp hq
    constructor
    · intro hx
      unfold explicitToolIds at hx
      rw [if_pos hq] at hx
      simp at hx
    · rintro ⟨tool, _, rfl, hx, hdisj⟩
      rw [hqn] at hdisj
      rcases hdisj with h1 | ⟨h1, h2⟩ | ⟨h1, h2⟩
      · exact absurd (pyIn_nil h1) hx
      · exact absurd (pyIn_nil h2) h1
      · exact absurd (pyIn_nil h2) h1
  · constructor
    · intro hx
      unfold explicitToolIds at hx
      rw [if_neg hq] at hx
      obtain ⟨e, he, hfe⟩ := List.mem_filterMap.mp hx
      cases e with
      | nonDict => simp at hfe
      | card tool =>
        dsimp only at hfe
        by_cases h1 : (normField tool.id).isEmpty = true
        · rw [if_pos h1] at hfe; simp at hfe
        · rw [if_neg h1] at hfe
          by_cases h2 : (pyIn (normField tool.id) (pyLower (pyStrip query))
              || (!(normField tool.path).isEmpty
                  && pyIn (normField tool.path) (pyLower (pyStrip query)))
              || (!(normField tool.title).isEmpty
                  && pyIn (normField tool.title) (pyLower (pyStrip query)))) = true
          · rw [if_pos h2] at hfe
            simp only [Option.some.injEq] at hfe
            subst hfe
            refine ⟨tool, he, rfl, fun hnil => h1 (List.isEmpty_iff.mpr hnil), ?_⟩
            simp only [Bool.or_eq_true, Bool.and_eq_true, Bool.not_eq_true',
              List.isEmpty_eq_false_iff_exists_mem] at h2
            rcases h2 with (h3 | ⟨h3, h4⟩) | ⟨h3, h4⟩
            · exact Or.inl h3
            · refine Or.inr (Or.inl ⟨?_, h4⟩)
              obtain ⟨y, hy⟩ := h3
              exact List.ne_nil_of_mem hy
            · refine Or.inr (Or.inr ⟨?_, h4⟩)
              obtain ⟨y, hy⟩ := h3
              exact List.ne_nil_of_mem hy
          · rw [if_neg h2] at hfe; simp at hfe
    · rintro ⟨tool, htool, rfl, hx, hdisj⟩
      unfold explicitToolIds
      rw [if_neg hq]
      refine List.mem_filterMap.mpr ⟨CatalogEntry.card tool, htool, ?_⟩
      dsimp only
      rw [if_neg (fun h => hx (List.isEmpty_iff.mp h))]
      rw [if_pos ?_]
      simp only [Bool.or_eq_true, Bool.and_eq_true, Bool.not_eq_true',
        List.isEmpty_eq_false_iff_exists_mem]
      rcases hdisj with h1 | ⟨h1, h2⟩ | ⟨h1, h2⟩
      · exact Or.inl (Or.inl h1)
      · refine Or.inl (Or.inr ⟨?_, h2⟩)
        cases hp : normField tool.path with
        | nil => exact absurd hp h1
        | cons a t => exact ⟨a, by simp⟩
      · refine Or.inr ⟨?_, h2⟩
        cases hp : normField tool.title with
        | nil => exact absurd hp h1
        | cons a t => exact ⟨a, by simp⟩

theorem explicitToolIds_mem_ne_nil {query : PyStr} {cards : List CatalogEntry}
    {x : PyStr} (h : x ∈ explicitToolIds query cards) : x ≠ [] :=
  (mem_explicitToolIds.mp h).choose_spec.2.2.1

theorem isEmpty_false_iff {α : Type} {l : List α} : l.isEmpty = false ↔ l ≠ [] := by
  cases l <;> simp

/- ------------------------------------------------------------------ -/
/- Claim theorems.                                                     -/
/- ------------------------------------------------------------------ -/

/-- C9: for every card, query and explicit-id set, the current-page bias is
worth exactly +3 over the score computed with no current tool, and it applies
precisely when the normalized `currentToolId` is non-empty, equals the card's
normalized id, and the explicit-id set is empty or contains it; in particular
a non-empty explicit set not containing it (an explicit mention of a
different tool) suppresses the bias. -/
theorem current_tool_bias (tool : ToolCard) (query : PyStr) (cur : Option PyStr)
    (ids : List PyStr) :
    scoreTool tool query cur ids
      = scoreTool tool query none ids
        + (if normField (cur.getD []) ≠ []
              ∧ normField (cur.getD []) = normField tool.id
              ∧ (ids = [] ∨ normField (cur.getD []) ∈ ids)
           then 3 else 0) := by
  rw [scoreTool_eq, scoreTool_eq]
  have hz : (if (!(normField ((none : Option PyStr).getD [])).isEmpty
      && (normField tool.id == normField ((none : Option PyStr).getD []))
      && (ids.isEmpty || ids.contains (normField ((none : Option PyStr).getD []))))
        = true
      then (3 : ℚ) else 0) = 0 := rfl
  rw [hz]
  have hcond : ((!(normField (cur.getD [])).isEmpty
      && (normField tool.id == normField (cur.getD []))
      && (ids.isEmpty || ids.contains (normField (cur.getD [])))) = true)
      ↔ (normField (cur.getD []) ≠ []
          ∧ normField (cur.getD []) = normField tool.id
          ∧ (ids = [] ∨ normField (cur.getD []) ∈ ids)) := by
    simp only [Bool.and_eq_true, Bool.not_eq_true', Bool.or_eq_true, beq_iff_eq,
      contains_iff_mem, List.isEmpty_iff, isEmpty_false_iff]
    constructor
    · rintro ⟨⟨h1, h2⟩, h3⟩
      exact ⟨h1, h2.symm, h3⟩
    · rintro ⟨h1, h2, h3⟩
      exact ⟨⟨h1, h2.symm⟩, h3⟩
  rw [if_congr hcond rfl rfl]
  ring

/-- C1: `_score_tool` equals the additive total of the specified weight terms
over normalized lower-cased comparisons — the explicit-mention and
current-page bonuses plus +6/+5/+4 for the id/title/path literally occurring
in the query and, per signal token of the query (repeats counted each time),
+2/+1.8/+1.3/+1.0 for id/title/description/detailed description and the
stacking +0.4 catch-all on the joined text blob; the score is never negative;
a card with no matching signal and no bonus scores exactly 0. -/
theorem score_tool_weight_terms (tool : ToolCard) (query : PyStr)
    (cur : Option PyStr) (ids : List PyStr) :
    (scoreTool tool query cur ids
      = (if normField tool.id ≠ [] ∧ normField tool.id ∈ ids then 10 else 0)
        + (if normField (cur.getD []) ≠ []
              ∧ normField tool.id = normField (cur.getD [])
              ∧ (ids = [] ∨ normField (cur.getD []) ∈ ids)
           then 3 else 0)
        + (if occursIn (normField tool.id) (pyLower query) then 6 else 0)
        + (if occursIn (normField tool.title) (pyLower query) then 5 else 0)
        + (if occursIn (normField tool.path) (pyLower query) then 4 else 0)
        + ((querySignalTokens query).map (tokenTermScore tool)).sum)
    ∧ 0 ≤ scoreTool tool query cur ids
    ∧ ((¬(normField tool.id ≠ [] ∧ normField tool.id ∈ ids)) →
       (¬(normField (cur.getD []) ≠ []
            ∧ normField tool.id = normField (cur.getD [])
            ∧ (ids = [] ∨ normField (cur.getD []) ∈ ids))) →
       occursIn (normField tool.id) (pyLower query) = false →
       occursIn (normField tool.title) (pyLower query) = false →
       occursIn (normField tool.path) (pyLower query) = false →
       (∀ t ∈ querySignalTokens query,
          pyIn t (normField tool.id) = false
          ∧ pyIn t (normField tool.title) = false
          ∧ pyIn t (normField tool.description) = false
          ∧ pyIn t (normField tool.detailedDescription) = false
          ∧ pyIn t (scoreTextBlob tool) = false) →
       scoreTool tool query cur ids = 0) := by
  have hc1 : ((!(normField tool.id).isEmpty && ids.contains (normField tool.id)) = true)
      ↔ (normField tool.id ≠ [] ∧ normField tool.id ∈ ids) := by
    simp only [Bool.and_eq_true, Bool.not_eq_true', isEmpty_false_iff, contains_iff_mem]
  have hc2 : ((!(normField (cur.getD [])).isEmpty
      && (normField tool.id == normField (cur.getD []))
      && (ids.isEmpty || ids.contains (normField (cur.getD [])))) = true)
      ↔ (normField (cur.getD []) ≠ []
          ∧ normField tool.id = normField (cur.getD [])
          ∧ (ids = [] ∨ normField (cur.getD []) ∈ ids)) := by
    simp only [Bool.and_eq_true, Bool.not_eq_true', Bool.or_eq_true, beq_iff_eq,
      contains_iff_mem, List.isEmpty_iff, isEmpty_false_iff]
    constructor
    · rintro ⟨⟨h1, h2⟩, h3⟩
      exact ⟨h1, h2, h3⟩
    · rintro ⟨h1, h2, h3⟩
      exact ⟨⟨h1, h2⟩, h3⟩
  have heq : scoreTool tool query cur ids
      = (if normField tool.id ≠ [] ∧ normField tool.id ∈ ids then 10 else 0)
        + (if normField (cur.getD []) ≠ []
              ∧ normField tool.id = normField (cur.getD [])
              ∧ (ids = [] ∨ normField (cur.getD []) ∈ ids)
           then 3 else 0)
        + (if occursIn (normField tool.id) (pyLower query) then 6 else 0)
        + (if occursIn (normField tool.title) (pyLower query) then 5 else 0)
        + (if occursIn (normField tool.path) (pyLower query) then 4 else 0)
        + ((querySignalTokens query).map (tokenTermScore tool)).sum := by
    rw [scoreTool_eq]
    unfold occursIn
    rw [if_congr hc1 rfl rfl, if_congr hc2 rfl rfl]
  refine ⟨heq, scoreTool_nonneg tool query cur ids, ?_⟩
  intro hex hcur hid htitle hpath htok
  rw [heq, if_neg hex, if_neg hcur, if_neg (by simp [hid]), if_neg (by simp [htitle]),
    if_neg (by simp [hpath])]
  have hsum : ((querySignalTokens query).map (tokenTermScore tool)).sum = 0 := by
    apply List.sum_eq_zero
    intro x hx
    obtain ⟨t, ht, rfl⟩ := List.mem_map.mp hx
    obtain ⟨k1, k2, k3, k4, k5⟩ := htok t ht
    unfold tokenTermScore
    rw [if_neg (by simp [k1]), if_neg (by simp [k2]), if_neg (by simp [k3]),
      if_neg (by simp [k4]), if_neg (by simp [k5])]
    norm_num
  rw [hsum]
  norm_num

/-- Witness for C1 at a concrete input: a card with no text fields, a query
with no matching signal, no current tool and no explicit ids scores 0. -/
theorem score_tool_weight_terms_witness :
    scoreTool {} (pystr "hello there") none [] = 0 :=
  (score_tool_weight_terms {} (pystr "hello there") none []).2.2
    (by decide) (by decide) (by decide) (by decide) (by decide) (by decide)

/-- C2: a card of the catalog whose non-empty normalized id literally appears
in the lower-cased query has its id in the explicit-mention set and scores at
least 10 under `_score_tool` with that set, whatever its other content;
membership in the set is characterized order-independently by the
id-or-path-or-title disjunction against the normalized query; a blank query
yields the empty set. -/
theorem explicit_mention_dominance (cards : List CatalogEntry) (query : PyStr)
    (cur : Option PyStr) :
    (∀ tool : ToolCard, CatalogEntry.card tool ∈ cards →
        normField tool.id ≠ [] →
        pyIn (normField tool.id) (pyLower query) = true →
        normField tool.id ∈ explicitToolIds query cards
          ∧ 10 ≤ scoreTool tool query cur (explicitToolIds query cards))
    ∧ (∀ x, x ∈ explicitToolIds query cards ↔
        ∃ tool, CatalogEntry.card tool ∈ cards ∧ x = normField tool.id ∧ x ≠ []
          ∧ (pyIn x (pyLower (pyStrip query)) = true
             ∨ (normField tool.path ≠ []
                ∧ pyIn (normField tool.path) (pyLower (pyStrip query)) = true)
             ∨ (normField tool.title ≠ []
                ∧ pyIn (normField tool.title) (pyLower (pyStrip query)) = true)))
    ∧ (pyStrip query = [] → explicitToolIds query cards = []) := by
  refine ⟨?_, fun x => mem_explicitToolIds, fun h => explicitToolIds_blank h cards⟩
  intro tool htool hne hin
  have hmemq : pyIn (normField tool.id) (pyLower (pyStrip query)) = true := by
    rw [pyIn_normField_norm]
    exact hin
  have hmem : normField tool.id ∈ explicitToolIds query cards :=
    mem_explicitToolIds.mpr ⟨tool, htool, rfl, hne, Or.inl hmemq⟩
  refine ⟨hmem, ?_⟩
  rw [scoreTool_eq]
  have h1 : (if (!(normField tool.id).isEmpty
      && (explicitToolIds query cards).contains (normField tool.id)) = true
      then (10 : ℚ) else 0) = 10 := by
    rw [if_pos]
    simp only [Bool.and_eq_true, Bool.not_eq_true', isEmpty_false_iff, contains_iff_mem]
    exact ⟨hne, hmem⟩
  rw [h1]
  have n1 := ite_zero_nonneg (c := (!(normField ((cur).getD [])).isEmpty
      && (normField tool.id == normField ((cur).getD []))
      && ((explicitToolIds query cards).isEmpty
          || (explicitToolIds query cards).contains (normField ((cur).getD [])))) = true)
    (show (0 : ℚ) ≤ 3 by norm_num)
  have n2 := ite_zero_nonneg (c := (!(normField tool.id).isEmpty
      && pyIn (normField tool.id) (pyLower query)) = true) (show (0 : ℚ) ≤ 6 by norm_num)
  have n3 := ite_zero_nonneg (c := (!(normField tool.title).isEmpty
      && pyIn (normField tool.title) (pyLower query)) = true) (show (0 : ℚ) ≤ 5 by norm_num)
  have n4 := ite_zero_nonneg (c := (!(normField tool.path).isEmpty
      && pyIn (normField tool.path) (pyLower query)) = true) (show (0 : ℚ) ≤ 4 by norm_num)
  have n5 := sum_tokenTermScore_nonneg tool (querySignalTokens query)
  linarith

/-- Witness for C2 at a concrete input: the id `qr` appears literally in the
query, lands in the explicit set, and the card scores at least 10. -/
theorem explicit_mention_dominance_witness :
    normField (ToolCard.id { id := pystr "qr" })
        ∈ explicitToolIds (pystr "use qr today") [CatalogEntry.card { id := pystr "qr" }]
      ∧ 10 ≤ scoreTool { id := pystr "qr" } (pystr "use qr today") none
          (explicitToolIds (pystr "use qr today") [CatalogEntry.card { id := pystr "qr" }]) :=
  (explicit_mention_dominance [CatalogEntry.card { id := pystr "qr" }]
      (pystr "use qr today") none).1
    { id := pystr "qr" } (by decide) (by decide) (by decide)

theorem any_congr_mem {α : Type} {l : List α} {f g : α → Bool}
    (h : ∀ x ∈ l, f x = g x) : l.any f = l.any g := by
  induction l with
  | nil => rfl
  | cons a l ih =>
    rw [List.any_cons, List.any_cons, h a (by simp), ih (fun x hx => h x (by simp [hx]))]

theorem pyIn_norm_e (pat s : PyStr)
    (hh : (match pat.head? with | some c => !pyIsSpace c | none => true) = true)
    (hl : (match (pat.reverse).head? with | some c => !pyIsSpace c | none => true) = true) :
    pyIn pat (pyLower (pyStrip s)) = pyIn pat (pyLower s) := by
  refine pyIn_norm ?_ ?_ s
  · intro c hc
    rw [hc] at hh
    simpa using hh
  · intro c hc
    rw [hc] at hl
    simpa using hl

/-- C7: `_is_multi_tool_request` holds exactly when the lower-cased query
contains one of the fixed literal phrases, or its token set has `tool` or
`tools` and meets the list-intent vocabulary; it is true on
`what are the tools`, false on `how do I resize an image`, and false on an
empty or blank query. -/
theorem multi_tool_request_iff :
    (∀ query : PyStr, isMultiToolRequest query =
      (MULTI_TOOL_QUERY_PHRASES.any (fun phrase => pyIn phrase (pyLower query))
        || (((pyTokens query).contains TOOL_TOKEN
              || (pyTokens query).contains TOOLS_TOKEN)
            && (pyTokens query).any (fun t => LIST_INTENT_TOKENS.contains t))))
    ∧ isMultiToolRequest (pystr "what are the tools") = true
    ∧ isMultiToolRequest (pystr "how do I resize an image") = false
    ∧ isMultiToolRequest (pystr "") = false
    ∧ isMultiToolRequest (pystr "   ") = false := by
  refine ⟨?_, by decide, by decide, by decide, by decide⟩
  intro query
  by_cases hq : (pyLower (pyStrip query)).isEmpty = true
  · have hqn : pyLower (pyStrip query) = [] := List.isEmpty_iff.mp hq
    have hsn : pyStrip query = [] := by
      cases h : pyStrip query with
      | nil => rfl
      | cons a t => rw [h] at hqn; simp [pyLower] at hqn
    have hws : ∀ c ∈ query, pyIsSpace c = true := all_space_of_pyStrip_eq_nil hsn
    have hlws : ∀ c ∈ pyLower query, pyIsSpace c = true := by
      intro c hc
      obtain ⟨d, hd, rfl⟩ := List.mem_map.mp hc
      rw [pyIsSpace_pyLowerChar]
      exact hws d hd
    have hL : isMultiToolRequest query = false := by
      unfold isMultiToolRequest
      rw [hqn]
      rfl
    have hP : MULTI_TOOL_QUERY_PHRASES.any (fun p => pyIn p (pyLower query)) = false := by
      apply List.any_eq_false.mpr
      intro p hp
      by_contra hcon
      have hpin : pyIn p (pyLower query) = true := by simpa using hcon
      fin_cases hp <;>
        exact absurd (hlws 's' (mem_of_isInfix (pyIn_iff.mp hpin) (by decide))) (by decide)
    have hT : pyTokens query = [] := by
      show wordRuns (pyLower query) [] = []
      rw [wordRuns_all_notword
        (fun c hc => isWordChar_eq_false_of_space (hlws c hc)) []]
      rfl
    rw [hL, hP, hT]
    rfl
  · have hPh : MULTI_TOOL_QUERY_PHRASES.any (fun p => pyIn p (pyLower (pyStrip query)))
        = MULTI_TOOL_QUERY_PHRASES.any (fun p => pyIn p (pyLower query)) := by
      apply any_congr_mem
      intro p hp
      fin_cases hp <;> exact pyIn_norm_e _ query (by decide) (by decide)
    unfold isMultiToolRequest
    rw [if_neg hq, hPh, pyTokens_norm]
    cases hA : MULTI_TOOL_QUERY_PHRASES.any (fun p => pyIn p (pyLower query)) with
    | true => rfl
    | false => rfl

theorem pyIn_of_norm {pat query : PyStr}
    (h : pyIn pat (pyLower (pyStrip query)) = true) :
    pyIn pat (pyLower query) = true := by
  rw [← pyStrip_pyLower] at h
  exact pyIn_iff.mpr (infix_of_infix_pyStrip (pyIn_iff.mp h))

theorem isMultiToolRequest_nonblank {query : PyStr}
    (h : isMultiToolRequest query = true) :
    (pyLower (pyStrip query)).isEmpty = false := by
  cases he : (pyLower (pyStrip query)).isEmpty with
  | false => rfl
  | true =>
    unfold isMultiToolRequest at h
    rw [if_pos he] at h
    exact absurd h (by simp)

/-- C5: the name `OFFLINE_QUERY_PHRASES` appears in the import list of
`tool_chat_views` but is bound nowhere in `tool_chat_static` (or anywhere in
the source); with that name unresolved, every multi-tool query that does not
contain the phrase "all tools" drives `_select_related_tools_for_list`
through `_is_offline_list_request`, whose body evaluates the undefined name
and raises `NameError` — so the spec-described list-selection behaviour is
reachable only if the name resolves. -/
theorem offline_query_phrases_undefined :
    ("OFFLINE_QUERY_PHRASES" ∈ toolChatViewsImportList
      ∧ "OFFLINE_QUERY_PHRASES" ∉ toolChatStaticDefinedNames)
    ∧ ∀ (cards : List CatalogEntry) (categoryMap : CategoryMap) (query : PyStr)
        (scored : List (ℚ × ToolCard)) (explicitIds : List PyStr),
        isMultiToolRequest query = true →
        pyIn ALL_TOOLS_QUERY_PHRASE (pyLower query) = false →
        validCards cards ≠ [] →
        selectRelatedToolsForList none cards categoryMap query scored explicitIds
          = .error .nameError := by
  refine ⟨⟨by decide, by decide⟩, ?_⟩
  intro cards cm query scored ids hmulti hall hvalid
  have h1 : (validCards cards).isEmpty = false := isEmpty_false_iff.mpr hvalid
  have hall2 : pyIn ALL_TOOLS_QUERY_PHRASE (pyLower (pyStrip query)) = false := by
    cases hfa : pyIn ALL_TOOLS_QUERY_PHRASE (pyLower (pyStrip query)) with
    | false => rfl
    | true => rw [pyIn_of_norm hfa] at hall; exact absurd hall (by simp)
  have hne : (pyLower (pyStrip query)).isEmpty = false := isMultiToolRequest_nonblank hmulti
  have hoff : isOfflineListRequest none (pyLower (pyStrip query))
      = .error .nameError := by
    simp only [isOfflineListRequest, norm_idem, isMultiToolRequest_norm, hmulti, hne]
    rfl
  simp only [selectRelatedToolsForList, h1, Bool.false_eq_true, if_false, hall2, hoff]
  rfl

/-- Witness for C5: on the multi-tool query `list tools` over a one-card
catalog, list selection with the name unresolved raises `NameError`. -/
theorem offline_query_phrases_undefined_witness :
    selectRelatedToolsForList none [CatalogEntry.card { id := pystr "a2x" }] []
      (pystr "list tools") [] [] = .error .nameError :=
  offline_query_phrases_undefined.2 [CatalogEntry.card { id := pystr "a2x" }] []
    (pystr "list tools") [] [] (by decide) (by decide) (by decide)

/-- C6: a query whose lower-cased form contains the literal phrase
"all tools" is a multi-tool request, and list selection returns every
dict-shaped card of the catalog, in catalog order, independent of the scored
list, the explicit ids, and the offline-phrase resolution. -/
theorem all_tools_bypass (offlineQueryPhrases : Option (List PyStr))
    (cards : List CatalogEntry) (categoryMap : CategoryMap) (query : PyStr)
    (scored : List (ℚ × ToolCard)) (explicitIds : List PyStr)
    (h : pyIn ALL_TOOLS_QUERY_PHRASE (pyLower query) = true) :
    isMultiToolRequest query = true
      ∧ selectRelatedToolsForList offlineQueryPhrases cards categoryMap query
          scored explicitIds = .ok (validCards cards) := by
  have hnorm : pyIn ALL_TOOLS_QUERY_PHRASE (pyLower (pyStrip query)) = true := by
    rw [show ALL_TOOLS_QUERY_PHRASE = pystr "all tools" from rfl,
      pyIn_norm_e (pystr "all tools") query (by decide) (by decide)]
    exact h
  constructor
  · have hne : (pyLower (pyStrip query)).isEmpty = false := by
      rw [isEmpty_false_iff]
      intro hnil
      rw [hnil] at hnorm
      exact absurd (pyIn_nil hnorm) (by decide)
    have hany : MULTI_TOOL_QUERY_PHRASES.any
        (fun p => pyIn p (pyLower (pyStrip query))) = true := by
      have h0 : pyIn (pystr "all tools") (pyLower (pyStrip query)) = true := hnorm
      simp only [MULTI_TOOL_QUERY_PHRASES, List.any_cons, h0, Bool.true_or]
    simp only [isMultiToolRequest, hne, Bool.false_eq_true, if_false, hany, if_true]
  · by_cases hv : (validCards cards).isEmpty = true
    · simp only [selectRelatedToolsForList, hv, if_true, List.isEmpty_iff.mp hv]
      rfl
    · simp only [selectRelatedToolsForList, hv, Bool.false_eq_true, if_false,
        hnorm, if_true]

/-- Witness for C6: `list all tools` over a catalog with two cards and a
non-dict entry selects exactly the two cards. -/
theorem all_tools_bypass_witness :
    isMultiToolRequest (pystr "list all tools") = true
      ∧ selectRelatedToolsForList (some OFFLINE_QUERY_PHRASES_spec)
          [CatalogEntry.card { id := pystr "a2x" }, CatalogEntry.nonDict,
           CatalogEntry.card { id := pystr "b2y" }] []
          (pystr "list all tools") [] []
        = .ok (validCards
            [CatalogEntry.card { id := pystr "a2x" }, CatalogEntry.nonDict,
             CatalogEntry.card { id := pystr "b2y" }]) :=
  all_tools_bypass (some OFFLINE_QUERY_PHRASES_spec)
    [CatalogEntry.card { id := pystr "a2x" }, CatalogEntry.nonDict,
     CatalogEntry.card { id := pystr "b2y" }] []
    (pystr "list all tools") [] [] (by decide)

/-- C8 (code bug): the claim says the core never raises and skips non-dict
entries everywhere, but the no-signal fallback `cards[:3]` keeps a non-dict
entry, which the renderer then calls `.get` on: with a single non-dict entry
and a no-signal query, `_build_context` raises `AttributeError`. -/
theorem non_dict_fallback_raises :
    buildContext (some OFFLINE_QUERY_PHRASES_spec) [CatalogEntry.nonDict] []
      (pystr "zzz") none = .error .attributeError := rfl

/-- C10 (counterexample): a selected card whose categoryId `imaging` is absent
from the (empty) category map renders with label `imaging`, and the sentinel
`Unknown` appears nowhere in the rendered context. -/
theorem category_fallback_counterexample :
    buildContext (some OFFLINE_QUERY_PHRASES_spec)
        [CatalogEntry.card
          { id := pystr "x", title := pystr "T", description := pystr "d",
            detailedDescription := pystr "dd", path := pystr "/x",
            categoryId := pystr "imaging" }]
        [] (pystr "x") none
      = .ok (pystr "- T (id: x, category: imaging, path: /x)\n  Short: d\n  Details: dd\n  Offline: no, Auth required: no",
          some
            { id := pystr "x", title := pystr "T", description := pystr "d",
              detailedDescription := pystr "dd", path := pystr "/x",
              categoryId := pystr "imaging" })
    ∧ pyIn UNKNOWN_CATEGORY_LABEL
        (pystr "- T (id: x, category: imaging, path: /x)\n  Short: d\n  Details: dd\n  Offline: no, Auth required: no")
      = false :=
  ⟨rfl, by decide⟩

/-- C10 (amended): a card whose normalized categoryId misses the category map
renders with the raw categoryId as label when that id is non-empty, and with
the sentinel `Unknown` only when it is empty — never an error. -/
theorem category_fallback_amended (categoryMap : CategoryMap) (tool : ToolCard)
    (h : categoryMap.lookup (normField tool.categoryId) = none) :
    toolContextLine tool (categoryLabelFor categoryMap tool)
      = toolContextLine tool
          (if normField tool.categoryId = [] then UNKNOWN_CATEGORY_LABEL
           else normField tool.categoryId) := by
  simp only [categoryLabelFor, pyDictGet, h]
  congr 1
  by_cases hc : normField tool.categoryId = []
  · rw [if_pos (List.isEmpty_iff.mpr hc), if_pos hc]
  · rw [if_neg (fun hh => hc (List.isEmpty_iff.mp hh)), if_neg hc]

/-- Witness for C10's amended claim at a concrete card and empty map. -/
theorem category_fallback_amended_witness :
    toolContextLine { categoryId := pystr "imaging" }
        (categoryLabelFor [] { categoryId := pystr "imaging" })
      = toolContextLine { categoryId := pystr "imaging" }
          (if normField (({ categoryId := pystr "imaging" } : ToolCard).categoryId) = []
           then UNKNOWN_CATEGORY_LABEL
           else normField (({ categoryId := pystr "imaging" } : ToolCard).categoryId)) :=
  category_fallback_amended [] { categoryId := pystr "imaging" } rfl

theorem validCards_map_card (cards : List ToolCard) :
    validCards (cards.map CatalogEntry.card) = cards := by
  induction cards with
  | nil => rfl
  | cons c l ih =>
    show List.filterMap _ _ = _
    rw [List.map_cons, List.filterMap_cons]
    show c :: validCards (l.map CatalogEntry.card) = c :: l
    rw [ih]

theorem filterMap_pos_guard (l : List (ℚ × ToolCard)) :
    l.filterMap (fun st => if 0 < st.1 then some st.2 else none)
      = (l.filter (fun st => decide (0 < st.1))).map Prod.snd := by
  induction l with
  | nil => rfl
  | cons a l ih =>
    rw [List.filterMap_cons, List.filter_cons]
    by_cases hp : 0 < a.1
    · simp [hp, ih]
    · simp [hp, ih]

theorem buildSelection_head_ge2 (offlineQueryPhrases : Option (List PyStr))
    (cards : List CatalogEntry) (categoryMap : CategoryMap) (query : PyStr)
    (cur : Option PyStr) (s : ℚ) (t : ToolCard)
    (hq : isMultiToolRequest query = false)
    (hp : (scoredCards cards query cur (explicitToolIds query cards)).head?
        = some (s, t))
    (h2 : 2 ≤ s) :
    buildSelection offlineQueryPhrases cards categoryMap query cur
      = .ok [CatalogEntry.card t] := by
  simp only [buildSelection, hq, Bool.false_eq_true, if_false, hp, if_pos h2]

theorem buildSelection_head_lt2_top (offlineQueryPhrases : Option (List PyStr))
    (cards : List CatalogEntry) (categoryMap : CategoryMap) (query : PyStr)
    (cur : Option PyStr) (s : ℚ) (t : ToolCard)
    (hq : isMultiToolRequest query = false)
    (hp : (scoredCards cards query cur (explicitToolIds query cards)).head?
        = some (s, t))
    (hlt : ¬ 2 ≤ s)
    (htop : ((scoredCards cards query cur (explicitToolIds query cards)).take 3).filterMap
        (fun st => if 0 < st.1 then some st.2 else none) ≠ []) :
    buildSelection offlineQueryPhrases cards categoryMap query cur
      = .ok ((((scoredCards cards query cur (explicitToolIds query cards)).take 3).filterMap
          (fun st => if 0 < st.1 then some st.2 else none)).map CatalogEntry.card) := by
  simp only [buildSelection, hq, Bool.false_eq_true, if_false, hp, if_neg hlt,
    isEmpty_false_iff.mpr htop, Bool.not_false, if_true]

theorem buildSelection_head_lt2_fallback (offlineQueryPhrases : Option (List PyStr))
    (cards : List CatalogEntry) (categoryMap : CategoryMap) (query : PyStr)
    (cur : Option PyStr) (s : ℚ) (t : ToolCard)
    (hq : isMultiToolRequest query = false)
    (hp : (scoredCards cards query cur (explicitToolIds query cards)).head?
        = some (s, t))
    (hlt : ¬ 2 ≤ s)
    (htop : ((scoredCards cards query cur (explicitToolIds query cards)).take 3).filterMap
        (fun st => if 0 < st.1 then some st.2 else none) = []) :
    buildSelection offlineQueryPhrases cards categoryMap query cur
      = .ok (cards.take 3) := by
  simp only [buildSelection, hq, Bool.false_eq_true, if_false, hp, if_neg hlt, htop,
    List.isEmpty_nil, Bool.not_true, if_false]

theorem buildSelection_head_none (offlineQueryPhrases : Option (List PyStr))
    (cards : List CatalogEntry) (categoryMap : CategoryMap) (query : PyStr)
    (cur : Option PyStr)
    (hq : isMultiToolRequest query = false)
    (hp : (scoredCards cards query cur (explicitToolIds query cards)).head? = none) :
    buildSelection offlineQueryPhrases cards categoryMap query cur
      = .ok (cards.take 3) := by
  have htop : ((scoredCards cards query cur (explicitToolIds query cards)).take 3).filterMap
      (fun st => if 0 < st.1 then some st.2 else none) = [] := by
    have hnil : scoredCards cards query cur (explicitToolIds query cards) = [] := by
      cases h : scoredCards cards query cur (explicitToolIds query cards) with
      | nil => rfl
      | cons a l => rw [h] at hp; simp at hp
    rw [hnil]
    rfl
  simp only [buildSelection, hq, Bool.false_eq_true, if_false, hp, htop,
    List.isEmpty_nil, Bool.not_true, if_false]

theorem except_bind_ok {e a b : Type} (x : a) (f : a → Except e b) :
    (Except.ok x : Except e a) >>= f = f x := rfl

theorem buildContext_ok_some (offlineQueryPhrases : Option (List PyStr))
    (cards : List CatalogEntry) (categoryMap : CategoryMap) (query : PyStr)
    (cur : Option PyStr) (sel : List CatalogEntry) (s : ℚ) (t : ToolCard)
    (hsel : buildSelection offlineQueryPhrases cards categoryMap query cur = .ok sel)
    (hcards : ∀ e ∈ sel, e ≠ CatalogEntry.nonDict)
    (hp : (scoredCards cards query cur (explicitToolIds query cards)).head?
        = some (s, t)) :
    buildContext offlineQueryPhrases cards categoryMap query cur
      = .ok (joinNewline (sel.filterMap (fun e =>
            match e with
            | .card tool => some (toolContextLine tool (categoryLabelFor categoryMap tool))
            | .nonDict => none)),
          if 0 < s then some t else none) := by
  simp only [buildContext, hsel, except_bind_ok, renderToolLines_ok categoryMap sel hcards, hp]
  rfl

theorem buildContext_ok_none (offlineQueryPhrases : Option (List PyStr))
    (cards : List CatalogEntry) (categoryMap : CategoryMap) (query : PyStr)
    (cur : Option PyStr) (sel : List CatalogEntry)
    (hsel : buildSelection offlineQueryPhrases cards categoryMap query cur = .ok sel)
    (hcards : ∀ e ∈ sel, e ≠ CatalogEntry.nonDict)
    (hp : (scoredCards cards query cur (explicitToolIds query cards)).head? = none) :
    buildContext offlineQueryPhrases cards categoryMap query cur
      = .ok (joinNewline (sel.filterMap (fun e =>
            match e with
            | .card tool => some (toolContextLine tool (categoryLabelFor categoryMap tool))
            | .nonDict => none)),
          none) := by
  simp only [buildContext, hsel, except_bind_ok, renderToolLines_ok categoryMap sel hcards, hp]
  rfl

/-- C3: for a query that is not a multi-tool request, the top of the sorted
scored list is a top-scoring card of the catalog; `_build_context` selects
only that card when its score is at least 2, else the up-to-three
positive-scoring cards in descending-score order (when some card scores
positively), else the first three catalog cards; and independently of the
branch, the best-matched output is the top-scoring card exactly when its
score is positive. -/
theorem build_context_single_intent (offlineQueryPhrases : Option (List PyStr))
    (cards : List ToolCard) (categoryMap : CategoryMap) (query : PyStr)
    (cur : Option PyStr) (hq : isMultiToolRequest query = false) :
    let entries := cards.map CatalogEntry.card
    let ids := explicitToolIds query entries
    let scored := scoredCards entries query cur ids
    let topTools := (scored.take 3).filterMap
      (fun st => if 0 < st.1 then some st.2 else none)
    (∀ p : ℚ × ToolCard, scored.head? = some p →
        p.2 ∈ cards ∧ p.1 = scoreTool p.2 query cur ids
          ∧ ∀ u ∈ cards, scoreTool u query cur ids ≤ p.1)
    ∧ (∀ p : ℚ × ToolCard, scored.head? = some p → 2 ≤ p.1 →
        buildSelection offlineQueryPhrases entries categoryMap query cur
          = .ok [CatalogEntry.card p.2])
    ∧ (∀ p : ℚ × ToolCard, scored.head? = some p → ¬ 2 ≤ p.1 →
        ((∃ u ∈ cards, 0 < scoreTool u query cur ids) →
            topTools ≠ []
            ∧ buildSelection offlineQueryPhrases entries categoryMap query cur
                = .ok (topTools.map CatalogEntry.card)
            ∧ topTools.length ≤ 3
            ∧ (∀ u ∈ topTools, u ∈ cards ∧ 0 < scoreTool u query cur ids)
            ∧ topTools.Pairwise
                (fun a b => scoreTool b query cur ids ≤ scoreTool a query cur ids))
        ∧ ((∀ u ∈ cards, scoreTool u query cur ids ≤ 0) →
            buildSelection offlineQueryPhrases entries categoryMap query cur
              = .ok ((cards.take 3).map CatalogEntry.card)))
    ∧ (scored.head? = none →
        buildSelection offlineQueryPhrases entries categoryMap query cur
          = .ok ((cards.take 3).map CatalogEntry.card))
    ∧ (∀ p : ℚ × ToolCard, scored.head? = some p →
        ∃ text, buildContext offlineQueryPhrases entries categoryMap query cur
          = .ok (text, if 0 < p.1 then some p.2 else none))
    ∧ (scored.head? = none →
        ∃ text, buildContext offlineQueryPhrases entries categoryMap query cur
          = .ok (text, none)) := by
  intro entries ids scored topTools
  have hvc : validCards entries = cards := validCards_map_card cards
  -- facts about the head of the sorted list
  have headFacts : ∀ p : ℚ × ToolCard, scored.head? = some p →
      p.2 ∈ cards ∧ p.1 = scoreTool p.2 query cur ids
        ∧ ∀ u ∈ cards, scoreTool u query cur ids ≤ p.1 := by
    intro p hp
    have hmem := scoredCards_head_mem hp
    obtain ⟨hv, hs⟩ := mem_scoredCards.mp hmem
    rw [hvc] at hv
    refine ⟨hv, hs, ?_⟩
    intro u hu
    have humem : ((scoreTool u query cur ids, u) : ℚ × ToolCard) ∈ scored :=
      mem_scoredCards.mpr ⟨by rw [hvc]; exact hu, rfl⟩
    exact scoredCards_head_le hp _ humem
  -- facts about topTools members
  have topMem : ∀ u ∈ topTools, u ∈ cards ∧ 0 < scoreTool u query cur ids := by
    intro u hu
    obtain ⟨st, hst, hg⟩ := List.mem_filterMap.mp hu
    have hsc : st ∈ scored := List.mem_of_mem_take hst
    obtain ⟨hv, hs⟩ := mem_scoredCards.mp hsc
    rw [hvc] at hv
    by_cases hpos : 0 < st.1
    · rw [if_pos hpos] at hg
      simp only [Option.some.injEq] at hg
      subst hg
      exact ⟨hv, by rw [← hs]; exact hpos⟩
    · rw [if_neg hpos] at hg
      simp at hg
  have topSorted : topTools.Pairwise
      (fun a b => scoreTool b query cur ids ≤ scoreTool a query cur ids) := by
    have h1 : List.Pairwise scoreDescRel (scored.take 3) :=
      List.Pairwise.sublist (List.take_sublist 3 scored)
        (scoredCards_sorted entries query cur ids)
    show ((scored.take 3).filterMap
        (fun st => if 0 < st.1 then some st.2 else none)).Pairwise _
    rw [filterMap_pos_guard]
    have h2 : List.Pairwise scoreDescRel
        ((scored.take 3).filter (fun st => decide (0 < st.1))) :=
      List.Pairwise.sublist (List.filter_sublist (scored.take 3)) h1
    rw [List.pairwise_map]
    refine List.Pairwise.imp_of_mem ?_ h2
    intro a b ha hb hr
    have hamem : a ∈ scored :=
      List.mem_of_mem_take (List.mem_of_mem_filter ha)
    have hbmem : b ∈ scored :=
      List.mem_of_mem_take (List.mem_of_mem_filter hb)
    have hae := (mem_scoredCards.mp hamem).2
    have hbe := (mem_scoredCards.mp hbmem).2
    rw [← hae, ← hbe]
    exact hr
  have topLen : topTools.length ≤ 3 := by
    calc topTools.length ≤ (scored.take 3).length := List.length_filterMap_le _ _
    _ ≤ 3 := by rw [List.length_take]; exact min_le_left 3 _
  refine ⟨headFacts, ?_, ?_, ?_, ?_, ?_⟩
  · rintro ⟨s, t⟩ hp h2
    exact buildSelection_head_ge2 offlineQueryPhrases entries categoryMap query cur
      s t hq hp h2
  · rintro ⟨s, t⟩ hp hlt
    constructor
    · rintro ⟨u, hu, hupos⟩
      have hne : topTools ≠ [] := by
        have humem : ((scoreTool u query cur ids, u) : ℚ × ToolCard) ∈ scored :=
          mem_scoredCards.mpr ⟨by rw [hvc]; exact hu, rfl⟩
        have hle := scoredCards_head_le hp _ humem
        have hspos : 0 < s := lt_of_lt_of_le hupos hle
        cases hsc : scored with
        | nil => rw [hsc] at hp; simp at hp
        | cons a rest =>
          rw [hsc] at hp
          simp only [List.head?_cons, Option.some.injEq] at hp
          subst hp
          have ht2 : topTools = (((s, t) :: rest).take 3).filterMap
              (fun st => if 0 < st.1 then some st.2 else none) := by
            have h0 : topTools = (scored.take 3).filterMap
                (fun st => if 0 < st.1 then some st.2 else none) := rfl
            rw [h0, hsc]
          rw [ht2, List.take_succ_cons, List.filterMap_cons]
          simp only [if_pos hspos]
          simp
      refine ⟨hne, ?_, topLen, topMem, topSorted⟩
      exact buildSelection_head_lt2_top offlineQueryPhrases entries categoryMap query
        cur s t hq hp hlt hne
    · intro hall
      have htop : topTools = [] := by
        rcases List.eq_nil_or_concat topTools with h | ⟨_, u, h⟩
        · exact h
        · exfalso
          have hu : u ∈ topTools := by rw [h]; simp
          obtain ⟨humem, hupos⟩ := topMem u hu
          exact absurd (hall u humem) (not_le.mpr hupos)
      have := buildSelection_head_lt2_fallback offlineQueryPhrases entries categoryMap
        query cur s t hq hp hlt htop
      rw [this, List.map_take]
  · intro hp
    have := buildSelection_head_none offlineQueryPhrases entries categoryMap query
      cur hq hp
    rw [this, List.map_take]
  · rintro ⟨s, t⟩ hp
    have hcard : ∀ sel : List CatalogEntry,
        (∀ e ∈ sel, e ∈ entries ∨ (∃ u, e = CatalogEntry.card u)) →
        ∀ e ∈ sel, e ≠ CatalogEntry.nonDict := by
      intro sel hs e he
      rcases hs e he with h1 | ⟨u, h1⟩
      · obtain ⟨v, _, hv⟩ := List.mem_map.mp h1
        rw [← hv]
        simp
      · rw [h1]
        simp
    by_cases h2 : 2 ≤ s
    · have hsel := buildSelection_head_ge2 offlineQueryPhrases entries categoryMap
        query cur s t hq hp h2
      exact ⟨_, buildContext_ok_some offlineQueryPhrases entries categoryMap query cur
        _ s t hsel (hcard _ (by intro e he; simp at he; exact Or.inr ⟨t, he⟩)) hp⟩
    · by_cases hne : topTools = []
      · have hsel := buildSelection_head_lt2_fallback offlineQueryPhrases entries
          categoryMap query cur s t hq hp h2 hne
        refine ⟨_, buildContext_ok_some offlineQueryPhrases entries categoryMap query cur
          _ s t hsel (hcard _ ?_) hp⟩
        intro e he
        exact Or.inl (List.mem_of_mem_take he)
      · have hsel := buildSelection_head_lt2_top offlineQueryPhrases entries
          categoryMap query cur s t hq hp h2 hne
        refine ⟨_, buildContext_ok_some offlineQueryPhrases entries categoryMap query cur
          _ s t hsel (hcard _ ?_) hp⟩
        intro e he
        obtain ⟨u, _, hu⟩ := List.mem_map.mp he
        exact Or.inr ⟨u, hu.symm⟩
  · intro hp
    have hsel := buildSelection_head_none offlineQueryPhrases entries categoryMap
      query cur hq hp
    refine ⟨_, buildContext_ok_none offlineQueryPhrases entries categoryMap query cur
      _ hsel ?_ hp⟩
    intro e he
    have h1 : e ∈ entries := List.mem_of_mem_take he
    obtain ⟨v, _, hv⟩ := List.mem_map.mp h1
    rw [← hv]
    simp

/-- Witness for C3 at a concrete input: on the single-intent query
`tell me about image compressor` over a two-card catalog, the head of the
sorted scored list is the image-compressor card at score 25.7, which is at
least 2, so the selection is exactly that card. -/
theorem build_context_single_intent_witness :
    buildSelection (some OFFLINE_QUERY_PHRASES_spec)
        (wCards.map CatalogEntry.card) wMap wQuerySingle none
      = .ok [CatalogEntry.card wImage] :=
  (build_context_single_intent (some OFFLINE_QUERY_PHRASES_spec)
      wCards wMap wQuerySingle none (by decide)).2.1
    ((25.7 : ℚ), wImage) (by rfl) (by norm_num)

theorem explicit_guard_eq {ids : List PyStr} (hids : ids.contains [] = false)
    (nid : PyStr) :
    (!nid.isEmpty && ids.contains nid) = ids.contains nid := by
  cases nid with
  | nil => simp only [List.isEmpty_nil, Bool.not_true, Bool.false_and, hids]
  | cons a t => simp

theorem filterMap_nested (l : List (ℚ × ToolCard)) (g : (ℚ × ToolCard) → Bool) :
    l.filterMap (fun st =>
        if st.1 ≤ 0 then none else if g st = true then some st.2 else none)
      = (l.filter (fun st => decide (0 < st.1) && g st)).map Prod.snd := by
  induction l with
  | nil => rfl
  | cons a l ih =>
    rw [List.filterMap_cons, List.filter_cons]
    by_cases h0 : a.1 ≤ 0
    · have h1 : ¬ (0 : ℚ) < a.1 := not_lt.mpr h0
      simp [h0, h1, ih]
    · have h1 : (0 : ℚ) < a.1 := not_le.mp h0
      by_cases hg : g a = true
      · simp [h0, h1, hg, ih]
      · simp [h0, h1, hg, ih]

theorem explicitToolIds_contains_nil (query : PyStr) (cards : List CatalogEntry) :
    (explicitToolIds query cards).contains [] = false := by
  cases hc : (explicitToolIds query cards).contains [] with
  | false => rfl
  | true =>
    have := contains_iff_mem.mp hc
    exact absurd rfl (explicitToolIds_mem_ne_nil this)

/-- C4: for a multi-tool query without the phrase "all tools" (the missing
`OFFLINE_QUERY_PHRASES` modelled from the spec as empty, making the offline
branch dead), list selection includes a scored card exactly when its score is
positive and either its id is in the explicit set or some focus token (signal
tokens minus the list-intent vocabulary, non-empty) occurs in its searchable
text; a non-empty result is returned in descending-score order, else the
top-5 positive-scored cards, else the first five catalog cards. -/
theorem select_related_tools_focus (cards : List ToolCard) (categoryMap : CategoryMap)
    (query : PyStr) (cur : Option PyStr)
    (hm : isMultiToolRequest query = true)
    (hna : pyIn ALL_TOOLS_QUERY_PHRASE (pyLower query) = false) :
    let entries := cards.map CatalogEntry.card
    let ids := explicitToolIds query entries
    let scored := scoredCards entries query cur ids
    let focusTokens := (querySignalTokens query).filter
      (fun token => !(LIST_INTENT_TOKENS.contains token))
    let included : (ℚ × ToolCard) → Bool := fun st =>
      decide (0 < st.1)
        && (ids.contains (normField st.2.id)
            || (!focusTokens.isEmpty && focusTokens.any (fun token =>
                  pyIn token (joinSpace [normField st.2.id, normField st.2.title,
                    normField st.2.description, normField st.2.path,
                    normField st.2.categoryId,
                    pyLower (pyStrip (pyDictGet categoryMap (normField st.2.categoryId) []))]))))
    let related := scored.filter included
    (related ≠ [] →
        selectRelatedToolsForList (some OFFLINE_QUERY_PHRASES_spec) entries categoryMap
            query scored ids = .ok (related.map Prod.snd)
          ∧ (related.map Prod.snd).Pairwise (fun a b =>
              scoreTool b query cur ids ≤ scoreTool a query cur ids))
    ∧ (related = [] →
        (scored.filter (fun st => decide (0 < st.1)) ≠ [] →
            selectRelatedToolsForList (some OFFLINE_QUERY_PHRASES_spec) entries categoryMap
              query scored ids
              = .ok (((scored.filter (fun st => decide (0 < st.1))).map Prod.snd).take 5))
        ∧ (scored.filter (fun st => decide (0 < st.1)) = [] →
            selectRelatedToolsForList (some OFFLINE_QUERY_PHRASES_spec) entries categoryMap
              query scored ids = .ok (cards.take 5))) := by
  intro entries ids scored focusTokens included related
  unfold related included focusTokens scored ids entries
  by_cases hcs : cards = []
  · subst hcs
    refine ⟨fun hrel => absurd rfl hrel, fun _ => ⟨fun hpos => absurd rfl hpos, fun _ => rfl⟩⟩
  · have hvne : (validCards (cards.map CatalogEntry.card)).isEmpty = false := by
      rw [validCards_map_card]
      exact isEmpty_false_iff.mpr hcs
    have hall2 : pyIn ALL_TOOLS_QUERY_PHRASE (pyLower (pyStrip query)) = false := by
      cases hfa : pyIn ALL_TOOLS_QUERY_PHRASE (pyLower (pyStrip query)) with
      | false => rfl
      | true => rw [pyIn_of_norm hfa] at hna; exact absurd hna (by simp)
    have hne := isMultiToolRequest_nonblank hm
    have hoff : isOfflineListRequest (some OFFLINE_QUERY_PHRASES_spec)
        (pyLower (pyStrip query)) = .ok false := by
      simp only [isOfflineListRequest, norm_idem, isMultiToolRequest_norm, hm, hne]
      rfl
    have hids : ∀ nid, (!nid.isEmpty
          && (explicitToolIds query (cards.map CatalogEntry.card)).contains nid)
        = (explicitToolIds query (cards.map CatalogEntry.card)).contains nid :=
      explicit_guard_eq (explicitToolIds_contains_nil query (cards.map CatalogEntry.card))
    simp only [selectRelatedToolsForList, hvne, Bool.false_eq_true, if_false,
      hall2, hoff, except_bind_ok, querySignalTokens_norm, hids, filterMap_nested,
      filterMap_pos_guard, validCards_map_card, isEmpty_false_iff.mpr hcs]
    refine ⟨?_, ?_⟩
    · intro hrel
      refine ⟨?_, ?_⟩
      · split
        · rfl
        · next hc =>
            exact absurd (by
              rw [Bool.not_eq_true', isEmpty_false_iff]
              simp only [ne_eq, List.map_eq_nil_iff]
              exact hrel) hc
      · rw [List.pairwise_map]
        refine List.Pairwise.imp_of_mem ?_
          (List.Pairwise.sublist (List.filter_sublist _)
            (scoredCards_sorted (cards.map CatalogEntry.card) query cur
              (explicitToolIds query (cards.map CatalogEntry.card))))
        intro a b ha hb hr
        have hae := (mem_scoredCards.mp (List.mem_of_mem_filter ha)).2
        have hbe := (mem_scoredCards.mp (List.mem_of_mem_filter hb)).2
        rw [← hae, ← hbe]
        exact hr
    · intro hrel
      refine ⟨?_, ?_⟩
      · intro hpos
        split
        · next hc =>
            rw [hrel] at hc
            simp at hc
        · split
          · next hc2 =>
              rw [List.isEmpty_iff, List.map_eq_nil_iff] at hc2
              exact absurd hc2 hpos
          · rfl
      · intro hpos
        split
        · next hc =>
            rw [hrel] at hc
            simp at hc
        · split
          · rfl
          · next hc2 =>
              rw [hpos] at hc2
              simp at hc2


/-- Witness for C4 at a concrete input: the repository test query
`what are the names of tools related to image` is a multi-tool request without
the phrase "all tools"; over the two-card catalog its focus token `image`
matches only the image-compressor card, which scores positively, so list
selection returns exactly that card. -/
theorem select_related_tools_focus_witness :
    selectRelatedToolsForList (some OFFLINE_QUERY_PHRASES_spec)
        (wCards.map CatalogEntry.card) wMap wQueryList
        (scoredCards (wCards.map CatalogEntry.card) wQueryList none
          (explicitToolIds wQueryList (wCards.map CatalogEntry.card)))
        (explicitToolIds wQueryList (wCards.map CatalogEntry.card))
      = .ok [wImage] := by
  have h := ((select_related_tools_focus wCards wMap wQueryList none
      (by decide) (by decide)).1 (by decide)).1
  rw [h]
  rfl
